import Mathlib

/-!
Verification of the nitro stage0 bootstrap compiler and package manager
(Rust sources under `src/stage0/src`) against its natural-language
specification.  Each Rust item that a claim depends on is shallowly
embedded as an executable Lean definition; machine integers are `Nat`
with explicit `% 2 ^ w` truncation where the Rust code truncates, fallible
Rust code becomes `Except`/`Option`, and in-place mutation becomes explicit
state passing.  Rust `panic!`/`todo!` sites are modelled by the dedicated
error constructors noted at each definition.

Positions and spans: the Rust lexer measures offsets in UTF-8 bytes
(`ch.len_utf8()`); the embedding works on `List Char` and counts offsets in
characters.  This is a strictly monotone reindexing of the same positions
and affects only the numeric value of span offsets, not which slice of the
source a span denotes.
-/

set_option linter.unusedVariables false

namespace Nitro

/-- A byte range in the source (lexer/span.rs `Span`); `offset`/`length`
mirror the `begin`/`end - begin` representation. -/
structure Span where
  offset : Nat
  length : Nat
deriving DecidableEq, Repr

/-- Union of two spans (lexer/span.rs `impl Add for &Span`): smallest range
covering both. -/
def Span.add (a b : Span) : Span :=
  ⟨min a.offset b.offset, max (a.offset + a.length) (b.offset + b.length) - min a.offset b.offset⟩

/-- OS of a compilation target (pkg/target.rs `TargetOs`). -/
inductive TargetOs where
  | darwin
  | linux
  | win32
deriving DecidableEq, Repr

/-- Name of the target OS (pkg/target.rs `TargetOs::name`). -/
def TargetOs.name : TargetOs → String
  | .darwin => "darwin"
  | .linux => "linux"
  | .win32 => "win32"

/-- Whether the target OS is unix (pkg/target.rs `TargetOs::is_unix`). -/
def TargetOs.isUnix : TargetOs → Bool
  | .darwin => true
  | .linux => true
  | .win32 => false

/-- Architecture of a target (pkg/target.rs `TargetArch`). -/
inductive TargetArch where
  | aarch64
  | x86s64
deriving DecidableEq, Repr

/-- Vendor of a target (pkg/target.rs `TargetVendor`). -/
inductive TargetVendor where
  | apple
  | pc
  | unknown
deriving DecidableEq, Repr

/-- Environment of a target (pkg/target.rs `TargetEnv`). -/
inductive TargetEnv where
  | gnu
  | msvc
deriving DecidableEq, Repr

/-- A built-in primitive target (pkg/target.rs `PrimitiveTarget`); the
16-byte UUID is kept abstract since no claim depends on its value. -/
structure PrimTarget where
  arch : TargetArch
  vendor : TargetVendor
  os : TargetOs
  env : Option TargetEnv
deriving DecidableEq, Repr

/-- The four built-in primitive targets (pkg/target.rs `PrimitiveTarget::ALL`). -/
def PrimTarget.all : List PrimTarget :=
  [⟨.x86s64, .unknown, .linux, some .gnu⟩,
   ⟨.aarch64, .apple, .darwin, none⟩,
   ⟨.x86s64, .apple, .darwin, none⟩,
   ⟨.x86s64, .pc, .win32, some .msvc⟩]

/-- Argument of `@pub` (pkg/ty.rs `Public`). -/
inductive Public where
  | externalVis
deriving DecidableEq, Repr

/-- Argument of `@ext` (pkg/ty.rs `Extern`). -/
inductive ExternAbi where
  | c
deriving DecidableEq, Repr

/-- Argument of `@repr` (pkg/ty.rs `Representation`). -/
inductive Repre where
  | i32
  | u8
  | un
deriving DecidableEq, Repr

/-- An `@foo` token's name and span (lexer/token.rs `AttributeName`). -/
structure AttrName where
  span : Span
  value : String
deriving DecidableEq, Repr

/-- Input of inline assembly (ast/expr.rs `AsmIn`). -/
inductive AsmIn where
  | register (v : String) (span : Span)
deriving Repr

/-- Output of inline assembly (ast/expr.rs `AsmOut`). -/
inductive AsmOut where
  | neverOut (span : Span)
deriving Repr

mutual

/-- An expression (ast/expr.rs `Expression`).  A `Call`'s path is always a
single identifier in this bootstrap (`Path::new(vec![Token::Identifier])`),
so the call constructor carries that identifier directly. -/
inductive Expression where
  | value (name : String) (span : Span)
  | call (name : String) (span : Span) (args : List (List Expression))
  | equal (s1 s2 : Span)
  | notEqual (s1 s2 : Span)
  | unsigned (v : Nat) (span : Span)
  | str (v : String) (span : Span)
  | nullE (span : Span)
  | asmE (ds : Span) (inst : String) (instSpan : Span)
      (inputs : List (AsmIn × List Expression)) (outputs : List (AsmOut × String))
  | ifE (ds : Span) (cond : List Expression) (body : List Statement)

/-- A statement (ast/stmt.rs `Statement`). -/
inductive Statement where
  | letS (attrs : Attributes) (ds : Span) (var : String) (varSpan : Span)
      (val : List Expression)
  | unitS (es : List Expression)
  | valueS (es : List Expression)

/-- The parsed attribute collection of one item (ast/attr.rs `Attributes`). -/
inductive Attributes where
  | mk (pub' : Option (AttrName × Public))
      (cond : Option (AttrName × List Expression))
      (ext : Option (AttrName × ExternAbi))
      (repr' : Option (AttrName × Repre))
      (entry : Option AttrName)
      (customs : List (AttrName × Option (List (List Expression))))

end

/-- Field accessor for `Attributes`: the `@pub` slot. -/
def Attributes.pubAttr : Attributes → Option (AttrName × Public)
  | .mk p _ _ _ _ _ => p

/-- Field accessor for `Attributes`: the `@if` slot. -/
def Attributes.condAttr : Attributes → Option (AttrName × List Expression)
  | .mk _ c _ _ _ _ => c

/-- Field accessor for `Attributes`: the `@ext` slot. -/
def Attributes.extAttr : Attributes → Option (AttrName × ExternAbi)
  | .mk _ _ e _ _ _ => e

/-- Field accessor for `Attributes`: the `@repr` slot. -/
def Attributes.reprAttr : Attributes → Option (AttrName × Repre)
  | .mk _ _ _ r _ _ => r

/-- Field accessor for `Attributes`: the `@entry` slot. -/
def Attributes.entryAttr : Attributes → Option AttrName
  | .mk _ _ _ _ e _ => e

/-- Field accessor for `Attributes`: the custom attributes. -/
def Attributes.customAttrs : Attributes → List (AttrName × Option (List (List Expression)))
  | .mk _ _ _ _ _ c => c

/-- The empty attribute collection (`Attributes::default()`). -/
def Attributes.default : Attributes := .mk none none none none none []

/-- Span of an expression (ast/expr.rs `Expression::span`). -/
def Expression.span : Expression → Span
  | .value _ s => s
  | .call _ s _ => s
  | .equal f s => f.add s
  | .notEqual f s => f.add s
  | .unsigned _ s => s
  | .str _ s => s
  | .nullE s => s
  | .asmE ds _ _ _ _ => ds
  | .ifE ds _ _ => ds

/-- A syntax error (lexer/mod.rs `SyntaxError`): a span and a reason. -/
structure SyntaxError where
  span : Span
  reason : String
deriving DecidableEq, Repr

/-- Diagnostics produced by the parsers, the condition evaluator and the
lowering code.  `panicked` models the source's panic sites (`todo!()`,
failing `assert!`s and `unwrap()`s); `fuelOut` is an artifact of the fueled
embedding of source loops and is never produced when enough fuel is
supplied. -/
inductive BuildDiag where
  | syn (e : SyntaxError)
  | panicked
  | fuelOut
deriving DecidableEq, Repr

/-- Evaluation of an `@if(cond)` attribute against the active target OS
(ast/attr.rs `Attributes::run_condition`, identical to codegen/mod.rs
`Codegen::check_condition`).  The `cond.iter().next().unwrap()` on an empty
condition list is a panic in the source, modelled as `panicked`. -/
def runCondition (cond : List Expression) (os : TargetOs) : Except BuildDiag Bool :=
  match cond with
  | [] => .error .panicked
  | lhs :: rest =>
    match lhs with
    | .value lhsV lhsSpan =>
      match rest with
      | [] =>
        .ok (if lhsV = "unix" then os.isUnix else lhsV = os.name)
      | second :: rest2 =>
        let eqSpan : Except BuildDiag (Bool × Span) :=
          match second with
          | .notEqual f s => .ok (false, f.add s)
          | .equal f s => .ok (true, f.add s)
          | e => .error (.syn ⟨e.span, "unsupported expression"⟩)
        match eqSpan with
        | .error e => .error e
        | .ok (equal, span) =>
          if lhsV ≠ "os" then
            .error (.syn ⟨lhsSpan, "unknown expression"⟩)
          else
            match rest2 with
            | [] => .error (.syn ⟨span, "expect a string literal after this"⟩)
            | .str rhs _ :: rest3 =>
              let res := if equal then rhs = os.name else rhs ≠ os.name
              if rest3.isEmpty then .ok res else .error .panicked
            | t :: _ => .error (.syn ⟨t.span, "expect a string literal"⟩)
    | e => .error (.syn ⟨e.span, "expect an identifier"⟩)

/-- Evaluation of a whole attribute set's condition: `run_condition` returns
`true` when no `@if` is present (ast/attr.rs lines 60-65). -/
def Attributes.runCond (attrs : Attributes) (os : TargetOs) : Except BuildDiag Bool :=
  match attrs.condAttr with
  | none => .ok true
  | some (_, cond) => runCondition cond os

/-- Modelled from the spec: `SourceFile::build` (absent from the snapshot
under src; only its caller `project/mod.rs` is present) evaluates the type's
`@if` and skips the whole type, compiling none of its functions, when the
condition is false: "Evaluate `@if`; skip whole type if false."  `true`
means the type's functions are emitted into the module. -/
def typeIsCompiled (attrs : Attributes) (os : TargetOs) : Except BuildDiag Bool :=
  attrs.runCond os

/-- The token list of the condition `os == "windows"` as produced by the
parser for `@if(os == "windows")`. -/
def condOsEqWindows (s : Span) : List Expression :=
  [.value "os" s, .equal s s, .str "windows" s]

/-- The token list of the condition `os == "win32"`. -/
def condOsEqWin32 (s : Span) : List Expression :=
  [.value "os" s, .equal s s, .str "win32" s]

/-! ## Type resolution (claim C4) -/

/-- A dotted identifier path (ast/path.rs `Path`), kept as its identifier
segments; the first segment is `self` or a package name. -/
structure AstPath where
  segs : List String
  span : Span
deriving DecidableEq, Repr

/-- Rendering of a path (ast/path.rs `impl Display for Path`): the segments
joined by `.`. -/
def AstPath.render (p : AstPath) : String :=
  String.intercalate "." p.segs

/-- Local view of a path (ast/path.rs `Path::as_local`): a single-component
path yields its identifier. -/
def AstPath.asLocal (p : AstPath) : Option String :=
  match p.segs with
  | [x] => some x
  | _ => none

/-- Last segment of a path (ast/path.rs `Path::last`); paths are constructed
non-empty with an identifier last. -/
def AstPath.lastSeg (p : AstPath) : String :=
  p.segs.getLastD ""

/-- A `use` declaration (ast/using.rs `Use`): the imported path and the
optional rename. -/
structure UseDecl where
  name : AstPath
  rename : Option String
deriving DecidableEq, Repr

/-- Whether a `use` makes the local identifier `x` visible: by its rename
when present, else by its last path segment (codegen/mod.rs lines 220-235). -/
def UseDecl.matches (u : UseDecl) (x : String) : Bool :=
  match u.rename with
  | some v => v = x
  | none => u.name.lastSeg = x

/-- The internal AST type definition a resolver entry can point at (the
fields of ast/bt.rs `BasicType` that lowering consults). -/
structure SrcTypeDef where
  isRef : Bool
  repr' : Option Repre
deriving DecidableEq, Repr

/-- An external published type as the resolver sees it (pkg/ty.rs
`BasicType` behind `TypeDeclaration::Basic`). -/
structure ExtTypeDecl where
  isClass : Bool
  repr' : Option Repre
  name : String
deriving DecidableEq, Repr

/-- A resolver entry (codegen/resolver.rs `ResolvedType`): an internal
source file (its optional type definition) or an external declaration with
its owning package's name and major version. -/
inductive ResolvedType where
  | internal (ty : Option SrcTypeDef)
  | external (pkgName : String) (pkgMajor : Nat) (decl : ExtTypeDecl)
deriving DecidableEq, Repr

/-- The type resolver (codegen/resolver.rs `TypeResolver`): a map from
fully-qualified type name to entry, embedded as an association list with
distinct keys (`populate_*` asserts key freshness). -/
def TypeResolver := List (String × ResolvedType)

/-- Lookup (codegen/resolver.rs `TypeResolver::resolve`). -/
def TypeResolver.resolve (rs : TypeResolver) (name : String) : Option ResolvedType :=
  (rs.find? fun e => e.1 = name).map (·.2)

/-- The use-list scan of codegen/mod.rs `Codegen::resolve` (lines 220-236):
iterate the `use` declarations in reverse and stop at the first whose rename
(when present) or last path segment equals `x`. -/
def scanUses (uses : List UseDecl) (x : String) : Option UseDecl :=
  uses.reverse.find? (fun u => u.matches x)

/-- Full-name computation of codegen/mod.rs `Codegen::resolve` (lines
215-249): a local identifier takes the matching `use`'s path, else falls
back to `self.<namespace>.<x>` (`self.<x>` at the package root); a
multi-segment path is used verbatim. -/
def resolveFullName (ns : String) (uses : List UseDecl) (name : AstPath) : String :=
  match name.asLocal with
  | some x =>
    match scanUses uses x with
    | some u => u.name.render
    | none => if ns = "" then "self." ++ x else "self." ++ ns ++ "." ++ x
  | none => name.render

/-- Type lookup (codegen/mod.rs `Codegen::resolve`, lines 213-255): compute
the full name, then consult the resolver; `none` is the "undefined" result. -/
def codegenResolve (rs : TypeResolver) (ns : String) (uses : List UseDecl)
    (name : AstPath) : Option (String × ResolvedType) :=
  let full := resolveFullName ns uses name
  (rs.resolve full).map (fun t => (full, t))

/-- The use-list scan of ast/ty.rs `Type::resolve` (lines 184-199): iterate
the `use` declarations forward without breaking, keeping the last match.
`Codegen::resolve` implements the same lookup by a reverse scan that stops
at the first hit. -/
def scanUsesForward (uses : List UseDecl) (x : String) : Option UseDecl :=
  uses.foldl (fun found u => if u.matches x then some u else found) none

/-- Specification-side lookup, following the spec's words: "Scan `use` list
in reverse declaration order; return the first whose renamed name (if
present) or last path segment equals `X`", i.e. the LAST declared matching
`use`; then the `self.<namespace>.X` fallback; undefined exactly when the
resulting key is absent from the resolver. -/
def specResolve (rs : TypeResolver) (ns : String) (uses : List UseDecl)
    (x : String) : Option (String × ResolvedType) :=
  let key :=
    match (uses.filter (fun u => u.matches x)).getLast? with
    | some u => u.name.render
    | none => if ns = "" then "self." ++ x else "self." ++ ns ++ "." ++ x
  (rs.resolve key).map (fun t => (key, t))

/-! ## Name mangling (claim C6) -/

/-- The exported semantic type (pkg/ty.rs `Type`), parametric in the name
representation so the same shape serves the mangler (`String` names) and
the binary serializer (byte-list names). -/
inductive PkgType (α : Type) where
  | unit (ptr : Nat)
  | never
  | struc (ptr : Nat) (pkg : Option (α × Nat)) (name : α)
  | cls (ptr : Nat) (pkg : Option (α × Nat)) (name : α)
deriving DecidableEq, Repr

/-- A published function parameter (pkg/ty.rs `FunctionParam`). -/
structure PkgParam (α : Type) where
  name : α
  ty : PkgType α
deriving DecidableEq, Repr

/-- A published function (pkg/ty.rs `Function`). -/
structure PkgFunc (α : Type) where
  name : α
  params : List (PkgParam α)
  ret : PkgType α
deriving DecidableEq, Repr

/-- UTF-8 byte length of a string (Rust `str::len`), computed as the sum of
the per-character encoded sizes so that it reduces inside the kernel. -/
def utf8Len (s : String) : Nat :=
  s.data.foldl (fun n c => n + c.utf8Size) 0

/-- Splitting a string at every `.` (Rust `str::split('.')`), including the
empty pieces Rust produces around consecutive or terminal dots. -/
def splitDots (s : String) : List String :=
  (s.data.splitOn '.').map (fun cs => String.mk cs)

/-- Length-prefixed dotted-name segments (pkg/ty.rs: `for p in
name.split('.') { write!(buf, "{}{}", p.len(), p) }`).  Rust `str::len` is
the UTF-8 byte length. -/
def mangleSegs (name : String) : String :=
  String.join ((splitDots name).map fun p => toString (utf8Len p) ++ p)

/-- Pointer-prefix part of a mangled type: one `P` per pointer level. -/
def manglePtrs (ptr : Nat) : String :=
  String.join (List.replicate ptr "P")

/-- Struct/class mangling (pkg/ty.rs `Type::mangle_basic`): the pointer
prefixes, the `S`/`C` marker, the package reference (`E<len><pkg>[V<major>]T`
for an external package, a second `S` when the package is absent), then the
length-prefixed segments. -/
def mangleBasic (cls : Bool) (ptr : Nat) (pkg : Option (String × Nat))
    (name : String) : String :=
  manglePtrs ptr
    ++ (if cls then "C" else "S")
    ++ (match pkg with
        | some (p, ver) =>
          "E" ++ toString (utf8Len p) ++ p ++ (if ver ≠ 0 then "V" ++ toString ver ++ "T" else "T")
        | none => "S")
    ++ mangleSegs name

/-- Type-reference mangling (pkg/ty.rs `Type::mangle`). -/
def PkgType.mangle : PkgType String → String
  | .unit ptr => manglePtrs ptr ++ "U"
  | .never => "N"
  | .struc ptr pkg name => mangleBasic false ptr pkg name
  | .cls ptr pkg name => mangleBasic true ptr pkg name

/-- Function-symbol mangling (pkg/ty.rs `Function::mangle`): prefix `_NIF`
for an executable-local symbol or `_NEF<len><pkg>[V<major>]T` for a library
export, the length-prefixed type path, `F<len><name>0`, the return type,
then the parameter types. -/
def PkgFunc.mangle (f : PkgFunc String) (lib : Option (String × Nat)) (ty : String) : String :=
  (match lib with
   | some (pkg, ver) =>
     "_NEF" ++ toString (utf8Len pkg) ++ pkg
       ++ (if ver ≠ 0 then "V" ++ toString ver else "") ++ "T"
   | none => "_NIF")
    ++ mangleSegs ty
    ++ "F" ++ toString (utf8Len f.name) ++ f.name ++ "0"
    ++ f.ret.mangle
    ++ String.join (f.params.map fun p => p.ty.mangle)

/-- Specification-side mangling of an internal struct reference, following
the spec's grammar line `S <len><seg>…` — a single `S` marker before the
first segment length. -/
def specInternalStructRef (ptr : Nat) (name : String) : String :=
  manglePtrs ptr ++ "S" ++ mangleSegs name

/-! ## Tokens and the token stream (lexer/token.rs, lexer/mod.rs) -/

/-- A token (lexer/token.rs `Token`); every variant carries its span.  The
float literal carries the digit string it was lexed from: the `f64` value
the source stores is a function of that string, and token equality in the
claims compares the underlying literal. -/
inductive Tok where
  | exclam (s : Span)
  | equalsTk (s : Span)
  | asterisk (s : Span)
  | dot (s : Span)
  | comma (s : Span)
  | colon (s : Span)
  | semi (s : Span)
  | openP (s : Span)
  | closeP (s : Span)
  | openC (s : Span)
  | closeC (s : Span)
  | attr (s : Span) (v : String)
  | uintLit (s : Span) (v : Nat)
  | floatTk (s : Span) (digits : String)
  | strLit (s : Span) (v : String)
  | kwUse (s : Span)
  | kwStruct (s : Span)
  | kwClass (s : Span)
  | kwImpl (s : Span)
  | kwFn (s : Span)
  | kwSelf (s : Span)
  | kwLet (s : Span)
  | kwIf (s : Span)
  | kwIs (s : Span)
  | kwAsm (s : Span)
  | kwNull (s : Span)
  | ident (s : Span) (v : String)
deriving DecidableEq, Repr

/-- Span of a token (lexer/token.rs `Token::span`). -/
def Tok.span : Tok → Span
  | .exclam s => s
  | .equalsTk s => s
  | .asterisk s => s
  | .dot s => s
  | .comma s => s
  | .colon s => s
  | .semi s => s
  | .openP s => s
  | .closeP s => s
  | .openC s => s
  | .closeC s => s
  | .attr s _ => s
  | .uintLit s _ => s
  | .floatTk s _ => s
  | .strLit s _ => s
  | .kwUse s => s
  | .kwStruct s => s
  | .kwClass s => s
  | .kwImpl s => s
  | .kwFn s => s
  | .kwSelf s => s
  | .kwLet s => s
  | .kwIf s => s
  | .kwIs s => s
  | .kwAsm s => s
  | .kwNull s => s
  | .ident s _ => s

/-- The parser's view of the `Lexer`: the remaining (already well-lexed)
token stream plus the one-token push-back state.  `last` mirrors
`Lexer::last`: the span of the most recently returned token, cleared by
`undo`. -/
structure LexState where
  toks : List Tok
  last : Option Span
deriving DecidableEq, Repr

/-- One step of `Lexer::next` at the token level: pop the head token and
record its span in `last`. -/
def LexState.nextTok : LexState → Option (Tok × LexState)
  | ⟨[], _⟩ => none
  | ⟨t :: rest, _⟩ => some (t, ⟨rest, some t.span⟩)

/-- One step of `Lexer::undo` at the token level: the token is re-entered
into the stream and `last` is taken (lexer/mod.rs lines 268-271). -/
def LexState.undoTok (t : Tok) (st : LexState) : LexState :=
  ⟨t :: st.toks, none⟩

/-- An "after this" diagnostic anchored at `lex.last().unwrap()`; the
`unwrap` on a fresh lexer is a panic. -/
def errAfter (st : LexState) (msg : String) : BuildDiag :=
  match st.last with
  | some sp => .syn ⟨sp, msg⟩
  | none => .panicked

/-- lexer/mod.rs `Lexer::next_op`. -/
def nextOp (st : LexState) : Except BuildDiag (Span × LexState) :=
  match st.nextTok with
  | none => .error (errAfter st "expect an '(' after this")
  | some (.openP s, st') => .ok (s, st')
  | some (t, _) => .error (.syn ⟨t.span, "expect an '('"⟩)

/-- lexer/mod.rs `Lexer::next_cp`. -/
def nextCp (st : LexState) : Except BuildDiag (Span × LexState) :=
  match st.nextTok with
  | none => .error (errAfter st "expect an ')' after this")
  | some (.closeP s, st') => .ok (s, st')
  | some (t, _) => .error (.syn ⟨t.span, "expect an ')'"⟩)

/-- lexer/mod.rs `Lexer::next_oc`. -/
def nextOc (st : LexState) : Except BuildDiag (Span × LexState) :=
  match st.nextTok with
  | none => .error (errAfter st "expect an '\x7b' after this")
  | some (.openC s, st') => .ok (s, st')
  | some (t, _) => .error (.syn ⟨t.span, "expect an '\x7b'"⟩)

/-- lexer/mod.rs `Lexer::next_equals`. -/
def nextEquals (st : LexState) : Except BuildDiag (Span × LexState) :=
  match st.nextTok with
  | none => .error (errAfter st "expect an '=' after this")
  | some (.equalsTk s, st') => .ok (s, st')
  | some (t, _) => .error (.syn ⟨t.span, "expect an '='"⟩)

/-- lexer/mod.rs `Lexer::next_colon`. -/
def nextColon (st : LexState) : Except BuildDiag (Span × LexState) :=
  match st.nextTok with
  | none => .error (errAfter st "expect an ':' after this")
  | some (.colon s, st') => .ok (s, st')
  | some (t, _) => .error (.syn ⟨t.span, "expect an ':'"⟩)

/-- lexer/mod.rs `Lexer::next_semicolon`. -/
def nextSemicolon (st : LexState) : Except BuildDiag (Span × LexState) :=
  match st.nextTok with
  | none => .error (errAfter st "expect an ';' after this")
  | some (.semi s, st') => .ok (s, st')
  | some (t, _) => .error (.syn ⟨t.span, "expect an ';'"⟩)

/-- lexer/mod.rs `Lexer::next_ident`, returning the identifier's value and
span. -/
def nextIdent (st : LexState) : Except BuildDiag ((String × Span) × LexState) :=
  match st.nextTok with
  | none => .error (errAfter st "expect an identifier after this")
  | some (.ident s v, st') => .ok ((v, s), st')
  | some (t, _) => .error (.syn ⟨t.span, "expect an identifier"⟩)

/-! ## Type syntax and `parse_type` (claim C7) -/

/-- Name of a syntactic type (ast/ty.rs `TypeName`). -/
inductive TypeName where
  | unitTN (o c : Span)
  | neverTN (s : Span)
  | identTN (path : AstPath)
deriving DecidableEq, Repr

/-- A syntactic type (ast/ty.rs `Type`): the pointer-asterisk spans and the
base name. -/
structure AstType where
  ptrs : List Span
  name : TypeName
deriving DecidableEq, Repr

/-- Span of a type name (ast/ty.rs `TypeName::span`). -/
def TypeName.span : TypeName → Span
  | .unitTN o c => o.add c
  | .neverTN s => s
  | .identTN p => p.span

/-- Token-class tests used by `Path::new` (lexer/token.rs `Token::is_self`,
`is_identifier`, `is_full_stop`). -/
def Tok.isSelfKw : Tok → Bool
  | .kwSelf _ => true
  | _ => false

/-- Whether a token is an identifier. -/
def Tok.isIdentTok : Tok → Bool
  | .ident _ _ => true
  | _ => false

/-- Whether a token is a `.`. -/
def Tok.isDotTok : Tok → Bool
  | .dot _ => true
  | _ => false

/-- Value of a path component for rendering (`self` or the identifier). -/
def Tok.componentValue : Tok → Option String
  | .kwSelf _ => some "self"
  | .ident _ v => some v
  | _ => none

/-- The alternation assertion of ast/path.rs `Path::new` on the components
after the first: expecting `.`, identifier, `.`, identifier, … -/
def pathAlternates : List Tok → Bool → Bool
  | [], _ => true
  | c :: rest, expectIdent =>
    (if expectIdent then c.isIdentTok else c.isDotTok) && pathAlternates rest (!expectIdent)

/-- Construction of a path from its token components (ast/path.rs
`Path::new`): the `assert!`s on non-emptiness, the identifier last
component, the `self`-or-identifier first component and the alternation are
panics when violated, modelled as `panicked`.  The span is the union of the
component spans and the segments are the `self`/identifier values in order
(ast/path.rs `Path::span`, `impl Display`). -/
def pathNew (components : List Tok) : Except BuildDiag AstPath :=
  match components with
  | [] => .error .panicked
  | first :: rest =>
    if ¬((components.getLast?.map Tok.isIdentTok).getD false) then .error .panicked
    else if ¬(first.isSelfKw || first.isIdentTok) then .error .panicked
    else if ¬(pathAlternates rest false) then .error .panicked
    else
      .ok ⟨components.filterMap Tok.componentValue,
        rest.foldl (fun sp c => sp.add c.span) first.span⟩

/-- The pointer-prefix loop of ast/mod.rs `parse_type` (lines 815-831):
consume `*` tokens until a non-`*` is pushed back; end of input is a
SyntaxError anchored at the previous span. -/
def starsLoop : List Tok → Option Span → Except BuildDiag (List Span × LexState)
  | [], last =>
    .error (errAfter ⟨[], last⟩ "expect an identifier after this")
  | .asterisk s :: rest, _ =>
    (starsLoop rest (some s)).map (fun r => (s :: r.1, r.2))
  | t :: rest, _ => .ok ([], ⟨t :: rest, none⟩)

/-- The dotted-path loop of ast/mod.rs `parse_type` (lines 847-877),
carrying the pending identifier and the accumulated component vector.  Note
the source pushes the `.` component before the identifier it follows. -/
def pathLoop : List Tok → String → Span → List Tok → Except BuildDiag (List Tok × LexState)
  | [], cur, curSpan, acc =>
    .ok (acc ++ [.ident curSpan cur], ⟨[], some curSpan⟩)
  | .dot ds :: rest, cur, curSpan, acc =>
    (match rest with
     | .ident vs v :: rest2 => pathLoop rest2 v vs (acc ++ [.dot ds, .ident curSpan cur])
     | t :: _ => .error (.syn ⟨t.span, "expect an identifier"⟩)
     | [] => .error (.syn ⟨ds, "expect an identifier after this"⟩))
  | t :: rest, cur, curSpan, acc =>
    .ok (acc ++ [.ident curSpan cur], ⟨t :: rest, none⟩)

/-- ast/mod.rs `SourceFile::parse_type` (lines 813-885): zero or more `*`
prefixes, then `!`, `(` `)`, or an identifier path. -/
def parseType (st : LexState) : Except BuildDiag (AstType × LexState) := do
  let (ptrs, st1) ← starsLoop st.toks st.last
  match st1.nextTok with
  | none => .error (errAfter st1 "expect an identifier after this")
  | some (.exclam s, st2) => .ok (⟨ptrs, .neverTN s⟩, st2)
  | some (.openP o, st2) =>
    let (c, st3) ← nextCp st2
    .ok (⟨ptrs, .unitTN o c⟩, st3)
  | some (.ident is0 v, st2) => do
    let (fqtn, st3) ← pathLoop st2.toks v is0 []
    let p ← pathNew fqtn
    .ok (⟨ptrs, .identTN p⟩, st3)
  | some (t, _) => .error (.syn ⟨t.span, "invalid type"⟩)

/-! ## Attribute, expression and statement parsing (claims C10, C5) -/

/-- Functional update of the `@pub` slot. -/
def Attributes.withPub (a : Attributes) (v : AttrName × Public) : Attributes :=
  .mk (some v) a.condAttr a.extAttr a.reprAttr a.entryAttr a.customAttrs

/-- Functional update of the `@if` slot. -/
def Attributes.withCond (a : Attributes) (v : AttrName × List Expression) : Attributes :=
  .mk a.pubAttr (some v) a.extAttr a.reprAttr a.entryAttr a.customAttrs

/-- Functional update of the `@ext` slot. -/
def Attributes.withExt (a : Attributes) (v : AttrName × ExternAbi) : Attributes :=
  .mk a.pubAttr a.condAttr (some v) a.reprAttr a.entryAttr a.customAttrs

/-- Functional update of the `@repr` slot. -/
def Attributes.withRepr (a : Attributes) (v : AttrName × Repre) : Attributes :=
  .mk a.pubAttr a.condAttr a.extAttr (some v) a.entryAttr a.customAttrs

/-- Functional update of the `@entry` slot. -/
def Attributes.withEntry (a : Attributes) (v : AttrName) : Attributes :=
  .mk a.pubAttr a.condAttr a.extAttr a.reprAttr (some v) a.customAttrs

/-- Appending a custom attribute. -/
def Attributes.pushCustom (a : Attributes) (v : AttrName × Option (List (List Expression))) :
    Attributes :=
  .mk a.pubAttr a.condAttr a.extAttr a.reprAttr a.entryAttr (a.customAttrs ++ [v])

mutual

/-- ast/expr.rs `Expression::parse`: the flat expression-sequence loop. -/
def parseExprs : Nat → LexState → Except BuildDiag (List Expression × LexState)
  | 0, _ => .error .fuelOut
  | n + 1, st => parseExprsGo n st []

/-- The loop body of `Expression::parse` with the accumulated sequence. -/
def parseExprsGo : Nat → LexState → List Expression →
    Except BuildDiag (List Expression × LexState)
  | 0, _, _ => .error .fuelOut
  | n + 1, st, acc =>
    match st.nextTok with
    | none => .error (errAfter st "expect an expression after this")
    | some (.uintLit s v, st1) => parseExprsGo n st1 (acc ++ [.unsigned v s])
    | some (.strLit s v, st1) => parseExprsGo n st1 (acc ++ [.str v s])
    | some (.kwNull s, st1) => .ok (acc ++ [.nullE s], st1)
    | some (.kwAsm s, st1) => do
      let (a, st2) ← parseAsm n s st1
      parseExprsGo n st2 (acc ++ [a])
    | some (.kwIf s, st1) => do
      let (i, st2) ← parseIfExpr n s st1
      parseExprsGo n st2 (acc ++ [i])
    | some (.ident is0 v, st1) =>
      (match st1.nextTok with
       | none => .ok (acc ++ [.value v is0], st1)
       | some (.exclam ex, st2) => do
         let (eq, st3) ← nextEquals st2
         parseExprsGo n st3 (acc ++ [.value v is0, .notEqual ex eq])
       | some (.equalsTk eq1, st2) => do
         let (eq2, st3) ← nextEquals st2
         parseExprsGo n st3 (acc ++ [.value v is0, .equal eq1 eq2])
       | some (.openP _, st2) => do
         let (args, st3) ← parseExprArgs n st2
         parseExprsGo n st3 (acc ++ [.call v is0 args])
       | some (t, st2) =>
         .ok (acc ++ [.value v is0], st2.undoTok t))
    | some (t, st1) => .ok (acc, st1.undoTok t)

/-- ast/expr.rs `Expression::parse_args`: comma-separated nested expression
sequences terminated by `)`. -/
def parseExprArgs : Nat → LexState →
    Except BuildDiag (List (List Expression) × LexState)
  | 0, _ => .error .fuelOut
  | n + 1, st => parseExprArgsGo n st []

/-- The loop body of `Expression::parse_args`. -/
def parseExprArgsGo : Nat → LexState → List (List Expression) →
    Except BuildDiag (List (List Expression) × LexState)
  | 0, _, _ => .error .fuelOut
  | n + 1, st, acc =>
    match st.nextTok with
    | some (.closeP _, st1) => .ok (acc, st1)
    | none => .error (errAfter st "expect ')' after this")
    | some (t, st1) => do
      let (e, st2) ← parseExprs n (st1.undoTok t)
      match st2.nextTok with
      | some (.comma _, st3) => parseExprArgsGo n st3 (acc ++ [e])
      | some (.closeP _, st3) => .ok (acc ++ [e], st3)
      | some (t2, _) => .error (.syn ⟨t2.span, "expect ')'"⟩)
      | none => .error (errAfter st2 "expect ')' after this")

/-- ast/expr.rs `Expression::parse_asm`. -/
def parseAsm : Nat → Span → LexState → Except BuildDiag (Expression × LexState)
  | 0, _, _ => .error .fuelOut
  | n + 1, ds, st => do
    let (_, st1) ← nextOp st
    match st1.nextTok with
    | none => .error (errAfter st1 "expect an instruction after this")
    | some (.strLit s inst, st2) =>
      (match st2.nextTok with
       | some (.comma _, st3) => do
         let (io, st4) ← parseAsmArgsGo n st3 [] []
         .ok (.asmE ds inst s io.1 io.2, st4)
       | some (.closeP _, st3) => .ok (.asmE ds inst s [] [], st3)
       | some (t, _) => .error (.syn ⟨t.span, "expect ')'"⟩)
       | none => .error (errAfter st2 "expect ')' after this"))
    | some (t, _) => .error (.syn ⟨t.span, "expect an instruction"⟩)

/-- The argument loop of `Expression::parse_asm` with the accumulated
inputs and outputs. -/
def parseAsmArgsGo : Nat → LexState → List (AsmIn × List Expression) →
    List (AsmOut × String) →
    Except BuildDiag ((List (AsmIn × List Expression) × List (AsmOut × String)) × LexState)
  | 0, _, _, _ => .error .fuelOut
  | n + 1, st, ins, outs =>
    match st.nextTok with
    | none => .error (errAfter st "expect ')' after this")
    | some (.closeP _, st1) => .ok ((ins, outs), st1)
    | some (.ident vs v, st1) => do
      let (ins2, outs2, st2) ←
        (if v = "in" then do
          let (r, st2) ← parseAsmIn n st1
          pure (ins ++ [r], outs, st2)
        else if v = "out" then do
          let (r, st2) ← parseAsmOut n st1
          pure (ins, outs ++ [r], st2)
        else .error (.syn ⟨vs, "unknown argument"⟩))
      match st2.nextTok with
      | some (.comma _, st3) => parseAsmArgsGo n st3 ins2 outs2
      | some (.closeP _, st3) => .ok ((ins2, outs2), st3)
      | some (t, _) => .error (.syn ⟨t.span, "expect ')'"⟩)
      | none => .error (errAfter st2 "expect ')' after this")
    | some (t, _) => .error (.syn ⟨t.span, "expect ')'"⟩)

/-- ast/expr.rs `Expression::parse_asm_in`. -/
def parseAsmIn : Nat → LexState →
    Except BuildDiag ((AsmIn × List Expression) × LexState)
  | 0, _ => .error .fuelOut
  | n + 1, st => do
    let (_, st1) ← nextOp st
    match st1.nextTok with
    | none => .error (errAfter st1 "expect an item after this")
    | some (.strLit s v, st2) => do
      let (_, st3) ← nextCp st2
      let (es, st4) ← parseExprs n st3
      .ok ((.register v s, es), st4)
    | some (t, _) => .error (.syn ⟨t.span, "invalid input"⟩)

/-- ast/expr.rs `Expression::parse_asm_out`. -/
def parseAsmOut : Nat → LexState →
    Except BuildDiag ((AsmOut × String) × LexState)
  | 0, _ => .error .fuelOut
  | n + 1, st => do
    let (_, st1) ← nextOp st
    match st1.nextTok with
    | none => .error (errAfter st1 "expect an item after this")
    | some (.exclam s, st2) => do
      let (cp, st3) ← nextCp st2
      match st3.nextTok with
      | some (.ident _ v, st4) => .ok ((.neverOut s, v), st4)
      | some (t, _) => .error (.syn ⟨t.span, "expect an identifier"⟩)
      | none => .error (.syn ⟨cp, "expect an identifier after this"⟩)
    | some (t, _) => .error (.syn ⟨t.span, "invalid output"⟩)

/-- ast/expr.rs `Expression::parse_if`. -/
def parseIfExpr : Nat → Span → LexState → Except BuildDiag (Expression × LexState)
  | 0, _, _ => .error .fuelOut
  | n + 1, ds, st => do
    let (cond, st1) ← parseExprs n st
    let (_, st2) ← nextOc st1
    let (body, st3) ← parseStmtBlock n st2
    .ok (.ifE ds cond body, st3)

/-- ast/stmt.rs `Statement::parse_block`. -/
def parseStmtBlock : Nat → LexState → Except BuildDiag (List Statement × LexState)
  | 0, _ => .error .fuelOut
  | n + 1, st => parseStmtBlockGo n st []

/-- The while-loop of `Statement::parse_block`. -/
def parseStmtBlockGo : Nat → LexState → List Statement →
    Except BuildDiag (List Statement × LexState)
  | 0, _, _ => .error .fuelOut
  | n + 1, st, acc => do
    let (s, st1) ← parseStmt n st
    match s with
    | some s => parseStmtBlockGo n st1 (acc ++ [s])
    | none => .ok (acc, st1)

/-- ast/stmt.rs `Statement::parse`. -/
def parseStmt : Nat → LexState → Except BuildDiag (Option Statement × LexState)
  | 0, _ => .error .fuelOut
  | n + 1, st => do
    let (attrs, st1) ←
      (match st.nextTok with
       | some (.attr s v, st1) => do
         let (attrs, st2) ← parseAttrs n ⟨s, v⟩ st1
         match st2.nextTok with
         | some (.closeC cs, _) => .error (.syn ⟨cs, "expect a statement"⟩)
         | some (t, st3) => pure (attrs, st3.undoTok t)
         | none => .error (errAfter st2 "expect a statement after this")
       | some (t, st1) => pure (Attributes.default, st1.undoTok t)
       | none => .error (errAfter st "expect an '\x7d' after this"))
    match st1.nextTok with
    | some (.kwLet ds, st2) => do
      let ((v, vs), st3) ← nextIdent st2
      let (_, st4) ← nextEquals st3
      let (es, st5) ← parseExprs n st4
      let (_, st6) ← nextSemicolon st5
      .ok (some (.letS attrs ds v vs es), st6)
    | some (.closeC _, st2) => .ok (none, st2)
    | some (t, st2) => do
      let (es, st3) ← parseExprs n (st2.undoTok t)
      match st3.nextTok with
      | some (.semi _, st4) => .ok (some (.unitS es), st4)
      | some (.closeC cs, st4) => .ok (some (.valueS es), st4.undoTok (.closeC cs))
      | some (t2, _) => .error (.syn ⟨t2.span, "expect ';'"⟩)
      | none => .error (errAfter st3 "expect an '\x7d' after this")
    | none => .error (errAfter st1 "expect an '\x7d' after this")

/-- ast/attr.rs `Attributes::parse`: parse the first attribute, then keep
consuming attribute names until a non-attribute token is pushed back. -/
def parseAttrs : Nat → AttrName → LexState → Except BuildDiag (Attributes × LexState)
  | 0, _, _ => .error .fuelOut
  | n + 1, first, st => do
    let (attrs, st1) ← parseAttrSingle n Attributes.default first st
    parseAttrsGo n attrs st1

/-- The loop of `Attributes::parse` (lines 25-39). -/
def parseAttrsGo : Nat → Attributes → LexState → Except BuildDiag (Attributes × LexState)
  | 0, _, _ => .error .fuelOut
  | n + 1, attrs, st =>
    match st.nextTok with
    | some (.attr s v, st1) => do
      let (attrs2, st2) ← parseAttrSingle n attrs ⟨s, v⟩ st1
      parseAttrsGo n attrs2 st2
    | some (t, st1) => .ok (attrs, st1.undoTok t)
    | none => .error (errAfter st "expected an item after this")

/-- ast/attr.rs `Attributes::parse_single` (lines 123-240): dispatch on the
attribute name, rejecting a second occurrence of each built-in attribute
before consuming any argument.  In the custom-attribute arm the source's
catch-all `_ => { lex.undo(); None }` also fires at end of input, where
`undo` rewinds to re-lex the attribute name itself; that rewind is modelled
by pushing the attribute token back. -/
def parseAttrSingle : Nat → Attributes → AttrName → LexState →
    Except BuildDiag (Attributes × LexState)
  | 0, _, _, _ => .error .fuelOut
  | n + 1, attrs, name, st =>
    if name.value = "entry" then
      if attrs.entryAttr.isSome then
        .error (.syn ⟨name.span, "multiple entry attribute is not allowed"⟩)
      else .ok (attrs.withEntry name, st)
    else if name.value = "ext" then
      if attrs.extAttr.isSome then
        .error (.syn ⟨name.span, "multiple ext attribute is not allowed"⟩)
      else do
        let (_, st1) ← nextOp st
        let ((v, vs), st2) ← nextIdent st1
        let (_, st3) ← nextCp st2
        if v = "C" then .ok (attrs.withExt (name, .c), st3)
        else .error (.syn ⟨vs, "unknown extern"⟩)
    else if name.value = "if" then
      if attrs.condAttr.isSome then
        .error (.syn ⟨name.span, "multiple if attribute is not allowed"⟩)
      else do
        let (_, st1) ← nextOp st
        let (cond, st2) ← parseExprs n st1
        let (_, st3) ← nextCp st2
        .ok (attrs.withCond (name, cond), st3)
    else if name.value = "pub" then
      if attrs.pubAttr.isSome then
        .error (.syn ⟨name.span, "multiple pub attribute is not allowed"⟩)
      else
        match st.nextTok with
        | some (.openP _, st1) =>
          (match st1.nextTok with
           | some (.closeP _, st2) => .ok (attrs.withPub (name, .externalVis), st2)
           | _ => .error .panicked)
        | some (t, st1) => .ok (attrs.withPub (name, .externalVis), st1.undoTok t)
        | none => .ok (attrs.withPub (name, .externalVis), st)
    else if name.value = "repr" then
      if attrs.reprAttr.isSome then
        .error (.syn ⟨name.span, "multiple repr attribute is not allowed"⟩)
      else do
        let (_, st1) ← nextOp st
        let ((v, vs), st2) ← nextIdent st1
        let (_, st3) ← nextCp st2
        if v = "i32" then .ok (attrs.withRepr (name, .i32), st3)
        else if v = "u8" then .ok (attrs.withRepr (name, .u8), st3)
        else if v = "un" then .ok (attrs.withRepr (name, .un), st3)
        else .error (.syn ⟨vs, "unknown representation"⟩)
    else
      match name.value.data with
      | [] => .error .panicked
      | c :: _ =>
        if c.isLower then
          .error (.syn ⟨name.span, "an attribute begin with a lower case is a reserved name"⟩)
        else
          match st.nextTok with
          | some (.openP _, st1) => do
            let (args, st2) ← parseExprArgs n st1
            .ok (attrs.pushCustom (name, some args), st2)
          | some (.closeP cs, _) => .error (.syn ⟨cs, "expect '('"⟩)
          | some (t, st1) => .ok (attrs.pushCustom (name, none), st1.undoTok t)
          | none =>
            .ok (attrs.pushCustom (name, none), ⟨[Tok.attr name.span name.value], none⟩)

end

/-! ## Lowering (claims C5, C8, C1)

The `Codegen` struct in the snapshot's codegen/mod.rs lacks the entry-point
and executable state that its callers use: ast/func.rs calls
`cx.entry()` / `cx.set_entry()` / `cx.executable()` and project/mod.rs
constructs `Codegen::new(pkg, version, target, exe, resolver)`.  Those
members are code of this repository outside src; the fields `exe` and
`entry` below are modelled from the callers and the spec ("owns namespace +
entry-point state", §2). -/

/-- Backend IR types as the typed wrappers expose them (codegen/ty.rs
`LlvmType`). -/
inductive LlvmTy where
  | void
  | i32t
  | u8t
  | u32t
  | u64t
  | ptr (pointee : LlvmTy)
deriving DecidableEq, Repr

/-- codegen/ty.rs `LlvmType::is_i32`: only the `I32` wrapper counts. -/
def LlvmTy.isI32 : LlvmTy → Bool
  | .i32t => true
  | _ => false

/-- An instruction of the single basic block the bootstrap emits
(codegen/builder.rs `Builder::call` / `ret` / `ret_void`). -/
inductive Instr where
  | callFn (callee : String) (args : List Int)
  | retVoid
  | retI32 (v : Int)
deriving DecidableEq, Repr

/-- An LLVM function in the module (codegen/func.rs `LlvmFunc` plus the
attribute state reachable through ffi.rs: `llvm_function_set_stdcall`,
`llvm_function_set_noreturn`).  `body = []` is a declaration. -/
structure IRFunc where
  name : String
  params : List LlvmTy
  ret : LlvmTy
  noret : Bool
  stdcall : Bool
  body : List Instr
deriving DecidableEq, Repr

/-- Pointer size in bytes (codegen/mod.rs `Codegen::pointer_size`, via the
LLVM data layout): all four primitive targets are 64-bit (x86-64 or
aarch64), so the layout reports 8. -/
def PrimTarget.pointerSize (_ : PrimTarget) : Nat := 8

/-- The code-generation context (codegen/mod.rs `Codegen`); `exe` and
`entry` are the modelled caller-visible state noted above, with
`entry = ""` standing for "no entry recorded yet" (`cx.entry().is_empty()`). -/
structure Codegen where
  pkg : String
  versionMajor : Nat
  target : PrimTarget
  ns : String
  resolver : TypeResolver
  exe : Bool
  entry : String
  funcs : List IRFunc

/-- Name resolution as ast/ty.rs `Type::resolve` (lines 175-219) performs
it: the forward use-list scan keeping the last match, then the
`self.<namespace>` fallback, then the resolver lookup. -/
def tyResolve (cg : Codegen) (uses : List UseDecl) (name : AstPath) :
    Option (String × ResolvedType) :=
  let full :=
    match name.asLocal with
    | some x =>
      match scanUsesForward uses x with
      | some u => u.name.render
      | none => if cg.ns = "" then "self." ++ x else "self." ++ cg.ns ++ "." ++ x
    | none => name.render
  (cg.resolver.resolve full).map (fun t => (full, t))

/-- ast/ty.rs `Type::build_primitive_struct`: the `@repr` mapping, with the
`todo!()` for a non-8-byte pointer size under `un` modelled as a panic. -/
def buildPrimStruct (cg : Codegen) : Repre → Except BuildDiag LlvmTy
  | .i32 => .ok .i32t
  | .u8 => .ok .u8t
  | .un => if cg.target.pointerSize = 8 then .ok .u64t else .error .panicked

/-- ast/ty.rs `Type::build` (lines 26-50): lower a syntactic type to a
backend type; `none` is the `Never` case.  The `todo!()`s for reference
types, missing `@repr` and class externals, and the `unwrap` on a typeless
source file, are panics. -/
def AstType.build (cg : Codegen) (uses : List UseDecl) (t : AstType) :
    Except BuildDiag (Option LlvmTy) := do
  let base ←
    match t.name with
    | .unitTN _ _ => pure (some LlvmTy.void)
    | .neverTN _ => pure none
    | .identTN p =>
      match tyResolve cg uses p with
      | some (_, .internal oty) =>
        (match oty with
         | none => .error .panicked
         | some d =>
           if d.isRef then .error .panicked
           else
             match d.repr' with
             | some r => (buildPrimStruct cg r).map some
             | none => .error .panicked)
      | some (_, .external _ _ decl) =>
        if decl.isClass then .error .panicked
        else
          match decl.repr' with
          | some r => (buildPrimStruct cg r).map some
          | none => .error .panicked
      | none => .error (.syn ⟨p.span, "type is undefined"⟩)
  match base with
  | none => pure none
  | some ty => pure (some (t.ptrs.foldl (fun acc _ => LlvmTy.ptr acc) ty))

/-- ast/ty.rs `Type::to_external` (lines 52-101): the published view of a
syntactic type; `none` is the undefined-type case, and the `unwrap` on a
typeless source file is a panic.  An internal type's name is the full key
with the `"self."` prefix stripped (`n[5..]`). -/
def AstType.toExternal (cg : Codegen) (uses : List UseDecl) (t : AstType) :
    Except BuildDiag (Option (PkgType String)) :=
  let ptr := t.ptrs.length
  match t.name with
  | .unitTN _ _ => .ok (some (.unit ptr))
  | .neverTN _ => .ok (some .never)
  | .identTN p =>
    match tyResolve cg uses p with
    | none => .ok none
    | some (n, .internal oty) =>
      let name := (n.drop 5 : String)
      (match oty with
       | none => .error .panicked
       | some d =>
         if d.isRef then .ok (some (.cls ptr none name))
         else .ok (some (.struc ptr none name)))
    | some (_, .external pkgName pkgMajor decl) =>
      if decl.isClass then .ok (some (.cls ptr (some (pkgName, pkgMajor)) decl.name))
      else .ok (some (.struc ptr (some (pkgName, pkgMajor)) decl.name))

/-- A function parameter in the source AST (ast/func.rs `FunctionParam`). -/
structure AstFuncParam where
  name : String
  nameSpan : Span
  ty : AstType
deriving Repr

/-- A function in the source AST (ast/func.rs `Function`). -/
structure AstFunction where
  attrs : Attributes
  name : String
  nameSpan : Span
  params : List AstFuncParam
  ret : Option AstType
  body : Option (List Statement)

/-- ast/func.rs `Function::build` (lines 38-169): condition gate, published
type construction, symbol-name choice (`@ext(C)` bypasses mangling),
duplicate check against the module, return-type lowering (with the `never`
flag recorded but — as in the source — never used afterwards), the
entry-point validation chain, parameter lowering, function creation, the
body requirement, and entry registration.  `build_body` (lines 171-182)
emits a single block containing `ret_void` regardless of the statements. -/
def AstFunction.build (cg : Codegen) (container : String) (uses : List UseDecl)
    (f : AstFunction) : Except BuildDiag (Option (PkgFunc String) × Codegen) := do
  -- Check condition.
  let cond ← f.attrs.runCond cg.target.os
  if ¬cond then return (none, cg)
  -- Get public type.
  let params ← f.params.mapM fun p => do
    match ← p.ty.toExternal cg uses with
    | some t => pure (PkgParam.mk p.name t)
    | none => .error (.syn ⟨p.ty.name.span, "undefined type"⟩)
  let ret ←
    match f.ret with
    | some v => do
      match ← v.toExternal cg uses with
      | some t => pure t
      | none => .error (.syn ⟨v.name.span, "undefined type"⟩)
    | none => pure (PkgType.unit 0)
  let ext : PkgFunc String := ⟨f.name, params, ret⟩
  -- Build function name.
  let name :=
    match f.attrs.extAttr with
    | some (_, .c) => f.name
    | none => ext.mangle (if cg.exe then none else some (cg.pkg, cg.versionMajor)) container
  -- Check if function already exists.
  if (cg.funcs.find? fun g => g.name = name).isSome then
    .error (.syn ⟨f.nameSpan, "multiple definition of the same name"⟩)
  else do
  -- Get return type (`never` is set when the return type is the Never type).
  let retPair ←
    match f.ret with
    | some v => do
      match ← v.build cg uses with
      | some t => pure (t, false)
      | none => pure (LlvmTy.void, true)
    | none => pure (LlvmTy.void, false)
  let retTy := retPair.1
  let neverFlag := retPair.2
  -- Check if entry point.
  let entry := f.attrs.entryAttr.isSome
  if entry ∧ cg.entry ≠ "" then
    .error (.syn ⟨f.nameSpan, "more than one entry point has been defined"⟩)
  else if entry ∧ ¬retTy.isI32 then
    .error (.syn ⟨f.nameSpan, "the entry point must have nitro.Int32 as a return type"⟩)
  else if entry ∧ ¬f.params.isEmpty then
    .error (.syn ⟨f.nameSpan, "the entry point must have zero parameters"⟩)
  else do
  -- Get params.
  let lparams ← f.params.mapM fun p => do
    match ← p.ty.build cg uses with
    | some t => pure t
    | none => .error (.syn ⟨p.ty.name.span, "function parameter cannot be a never type"⟩)
  -- Create a function.
  let func : IRFunc :=
    { name := name, params := lparams, ret := retTy, noret := false, stdcall := false,
      body := match f.body with | some _ => [.retVoid] | none => [] }
  match f.body with
  | some _ => pure ()
  | none =>
    if f.attrs.extAttr.isNone then
      .error (.syn ⟨f.nameSpan, "a body is required for non-extern or non-abstract"⟩)
    else pure ()
  -- Set entry point.
  let cg2 : Codegen :=
    { cg with funcs := cg.funcs ++ [func], entry := if entry then name else cg.entry }
  .ok (some ext, cg2)

/-- The `exit` declaration the executable entry synthesis emits: a
declared-noreturn `exit(i32) -> void`.  Modelled from the spec:
"synthesize `_main` calling a declared-noreturn `exit(i32)` with `0`". -/
def exitDecl : IRFunc := ⟨"exit", [.i32t], .void, true, false, []⟩

/-- The synthesized `_main`: calls `exit` with `0`, then an (unreachable)
`ret void`.  Modelled from the spec (§4.7 entry-point synthesis). -/
def mainSynth : IRFunc := ⟨"_main", [], .void, false, false, [.callFn "exit" [0], .retVoid]⟩

/-- The `_DllMainCRTStartup` a Win32 shared library gets (codegen/mod.rs
`build_dll_main`, lines 275-299): stdcall, returns constant `1`. -/
def dllMain : IRFunc :=
  ⟨"_DllMainCRTStartup", [.ptr .void, .u32t, .ptr .void], .i32t, false, true, [.retI32 1]⟩

/-- Modelled from the spec: the executable branch of module close
(`build_main` — absent from the snapshot's codegen/mod.rs, which only
carries the Win32-DLL branch of `Codegen::build`, lines 257-299): for an
executable, synthesize `_main` calling the declared-noreturn `exit(i32)`
with `0` then `ret void`, and fail with an error when no `@entry` was
recorded. -/
def Codegen.buildMain (cg : Codegen) : Except String (List IRFunc) :=
  if cg.entry = "" then .error "no entry point"
  else .ok (cg.funcs ++ [exitDecl, mainSynth])

/-- Module close (codegen/mod.rs `Codegen::build` for the DLL branch; the
executable branch is `Codegen.buildMain`, modelled from the spec): the
final function list of the emitted module. -/
def Codegen.buildModule (cg : Codegen) (exe : Bool) : Except String (List IRFunc) :=
  if exe then cg.buildMain
  else if cg.target.os = .win32 then .ok (cg.funcs ++ [dllMain])
  else .ok cg.funcs

/-! ## Concrete lowering fixtures (used by the C5/C8 theorems)

The resolver below is seeded the way the executable pass of
project/mod.rs seeds it for scenario S1: the primitive struct `Int32` with
`@repr(i32)` reachable as `self.Int32` from the package root. -/

/-- A resolver exposing `self.Int32` as an internal `@repr(i32)` primitive
struct. -/
def int32Resolver : TypeResolver :=
  [("self.Int32", .internal (some ⟨false, some .i32⟩))]

/-- An executable-build context on the Linux primitive target with no entry
recorded and an empty module. -/
def exeCg : Codegen :=
  ⟨"p", 1, ⟨.x86s64, .unknown, .linux, some .gnu⟩, "", int32Resolver, true, "", []⟩

/-- The syntactic type `Int32`. -/
def int32Ty : AstType := ⟨[], .identTN ⟨["Int32"], ⟨30, 5⟩⟩⟩

/-- The syntactic type `!`. -/
def neverTy : AstType := ⟨[], .neverTN ⟨30, 1⟩⟩

/-- An attribute set carrying exactly `@entry`. -/
def entryOnlyAttrs : Attributes := .mk none none none none (some ⟨⟨0, 6⟩, "entry"⟩) []

/-- An attribute set carrying exactly `@ext(C)`. -/
def extCAttrs : Attributes := .mk none none (some (⟨⟨0, 4⟩, "ext"⟩, .c)) none none []

/-- The AST of `@entry fn Main(x: Int32): Int32 { … }` (scenario S6). -/
def mainBadParam : AstFunction :=
  ⟨entryOnlyAttrs, "Main", ⟨10, 4⟩, [⟨"x", ⟨15, 1⟩, int32Ty⟩], some int32Ty, some []⟩

/-- The AST of `@entry fn Main(): Int32 { … }` (scenario S1). -/
def mainGood : AstFunction :=
  ⟨entryOnlyAttrs, "Main", ⟨10, 4⟩, [], some int32Ty, some []⟩

/-- The AST of `@entry fn Main() { … }` — entry with no return type. -/
def mainRetUnit : AstFunction :=
  ⟨entryOnlyAttrs, "Main", ⟨10, 4⟩, [], none, some []⟩

/-- The AST of `@ext(C) fn f(): !;` — an extern declaration whose declared
return type is the Never type. -/
def neverFn : AstFunction :=
  ⟨extCAttrs, "f", ⟨3, 1⟩, [], some neverTy, none⟩

/-- The AST of `fn g(): ! { … }` — a bodied function returning Never. -/
def neverBodyFn : AstFunction :=
  ⟨Attributes.default, "g", ⟨3, 1⟩, [], some neverTy, some []⟩

/-! ## The character-level lexer (claim C9)

lexer/mod.rs `Lexer`.  The `data`/`next` cursor pair is embedded as a char
list with a char-counting position (see the header note on offsets).  The
character classes `char::is_whitespace` / `char::is_alphanumeric` of Rust
are Unicode-wide; `Char.isWhitespace` / `Char.isAlphanum` cover their ASCII
portion, which is the alphabet the language's tokens use — the claims
proved below do not depend on where the class boundary lies. -/

/-- lexer/mod.rs `Lexer::is_ident`: alphanumeric or underscore. -/
def isIdentChar (c : Char) : Bool := c.isAlphanum || c = '_'

/-- The lexer state (lexer/mod.rs `Lexer`): shared source, cursor (`next`
in the source), and the span of the last returned token. -/
structure Lexer where
  data : List Char
  pos : Nat
  last : Option Span
deriving DecidableEq, Repr

/-- The whitespace-discarding loop at the head of `Lexer::next` (lines
153-165): the first non-whitespace character at or after position `i`,
the characters after it, and its position. -/
def skipWs : List Char → Nat → Option (Char × List Char × Nat)
  | [], _ => none
  | c :: cs, i => if c.isWhitespace then skipWs cs (i + 1) else some (c, cs, i)

/-- Value of a digit string (the `lit.parse::<u64>()` of `parse_num`). -/
def natOfDigits (l : List Char) : Nat :=
  l.foldl (fun n c => n * 10 + (c.toNat - 48)) 0

/-- lexer/mod.rs `Lexer::parse_num`: a literal containing `.` parses as a
float, else as unsigned.  The Rust `f64` parse of a digits-and-dots string
starting with a digit succeeds exactly when at most one dot occurs (the
stored `f64` is a function of the digit string the token carries); the
`u64` parse fails exactly on overflow. -/
def parseNum (lit : List Char) (span : Span) : Except BuildDiag Tok :=
  if lit.contains '.' then
    if lit.count '.' ≤ 1 then .ok (.floatTk span (String.mk lit))
    else .error (.syn ⟨span, "invalid floating point literal"⟩)
  else
    if natOfDigits lit < 2 ^ 64 then .ok (.uintLit span (natOfDigits lit))
    else .error (.syn ⟨span, "invalid integer literal"⟩)

/-- lexer/mod.rs `Lexer::parse_ident`: the fixed keyword table, else an
identifier. -/
def parseIdentTok (word : List Char) (span : Span) : Tok :=
  let w := String.mk word
  if w = "asm" then .kwAsm span
  else if w = "class" then .kwClass span
  else if w = "fn" then .kwFn span
  else if w = "if" then .kwIf span
  else if w = "is" then .kwIs span
  else if w = "impl" then .kwImpl span
  else if w = "let" then .kwLet span
  else if w = "null" then .kwNull span
  else if w = "self" then .kwSelf span
  else if w = "struct" then .kwStruct span
  else if w = "use" then .kwUse span
  else .ident span w

/-- The string-literal loop of `Lexer::next` (lines 205-245): `start` is the
position of the opening quote, `pos` the position of the next unread
character, `acc` the accumulated value.  An embedded newline or end of
input is an "incomplete string" error with the span the source computes. -/
def scanStr : List Char → Nat → Nat → List Char → Except BuildDiag (Tok × Nat)
  | [], pos, start, _ =>
    .error (.syn ⟨⟨start, pos - start⟩, "incomplete string"⟩)
  | c :: cs, pos, start, acc =>
    if c = '\n' then .error (.syn ⟨⟨start, pos - start⟩, "incomplete string"⟩)
    else if c = '"' then .ok (.strLit ⟨start, pos + 1 - start⟩ (String.mk acc), pos + 1)
    else scanStr cs (pos + 1) start (acc ++ [c])

/-- The token recognizer of `Lexer::next` after whitespace skipping: `c` is
the first non-whitespace character, `cs` the characters after it, `i` its
position.  Returns the token and the position after it.  Single-character
punctuation first; then `@`-attributes, string literals, numeric literals
(digits before the identifier class, as in the source), identifiers and
keywords; any other character is the source's `todo!()`. -/
def lexTok (c : Char) (cs : List Char) (i : Nat) : Except BuildDiag (Tok × Nat) :=
  if c = '!' then .ok (.exclam ⟨i, 1⟩, i + 1)
  else if c = '=' then .ok (.equalsTk ⟨i, 1⟩, i + 1)
  else if c = '*' then .ok (.asterisk ⟨i, 1⟩, i + 1)
  else if c = '.' then .ok (.dot ⟨i, 1⟩, i + 1)
  else if c = ',' then .ok (.comma ⟨i, 1⟩, i + 1)
  else if c = ':' then .ok (.colon ⟨i, 1⟩, i + 1)
  else if c = ';' then .ok (.semi ⟨i, 1⟩, i + 1)
  else if c = '(' then .ok (.openP ⟨i, 1⟩, i + 1)
  else if c = ')' then .ok (.closeP ⟨i, 1⟩, i + 1)
  else if c = '{' then .ok (.openC ⟨i, 1⟩, i + 1)
  else if c = '}' then .ok (.closeC ⟨i, 1⟩, i + 1)
  else if c = '@' then
    let name := cs.takeWhile isIdentChar
    let span : Span := ⟨i, 1 + name.length⟩
    if name.isEmpty then .error (.syn ⟨span, "no attribute name is specified"⟩)
    else .ok (.attr span (String.mk name), i + 1 + name.length)
  else if c = '"' then scanStr cs (i + 1) i []
  else if c.isDigit then
    let lit := (c :: cs).takeWhile fun ch => ch.isDigit || ch = '.'
    match parseNum lit ⟨i, lit.length⟩ with
    | .error e => .error e
    | .ok t => .ok (t, i + lit.length)
  else if isIdentChar c then
    let word := (c :: cs).takeWhile isIdentChar
    .ok (parseIdentTok word ⟨i, word.length⟩, i + word.length)
  else .error .panicked

/-- lexer/mod.rs `Lexer::next` (lines 151-266): skip whitespace, recognize
one token, record its span in `last`.  `Ok(None)` at end of input leaves
the cursor at the end and `last` untouched. -/
def Lexer.next (lx : Lexer) : Except BuildDiag (Option Tok × Lexer) :=
  match skipWs (lx.data.drop lx.pos) lx.pos with
  | none => .ok (none, { lx with pos := lx.data.length })
  | some (c, cs, i) =>
    match lexTok c cs i with
    | .error e => .error e
    | .ok (t, p) => .ok (some t, ⟨lx.data, p, some t.span⟩)

/-- lexer/mod.rs `Lexer::undo` (lines 268-271): rewind the cursor to the
last token's start and take the span; `none` when there is no last token
(the source's `unwrap` panic). -/
def Lexer.undo (lx : Lexer) : Option Lexer :=
  lx.last.map fun s => ⟨lx.data, s.offset, none⟩

/-! ## The `.npk` package container (claim C3)

Byte-level embedding of pkg/mod.rs `Package::pack` / `Package::unpack`,
pkg/lib.rs `Library::serialize` / `Library::unpack`, pkg/ty.rs
`TypeDeclaration` / `Function` / `FunctionParam` / `Type` serialization,
pkg/dep.rs `Dependency`, and pkg/meta.rs `PackageName` / `PackageVersion`.
Bytes are `Nat` values below 256; strings are carried as their UTF-8 byte
lists, with `String::from_utf8` modelled by an explicit UTF-8 validity
check.  Serializers return `Option`: `none` models the source's
`try_into().unwrap()` panics on out-of-range lengths.  The zstd stream
(an external library, lossless by contract) is modelled as the identity
byte codec, and the `take(len)`-bounded reader as consuming exactly the
recorded `len` bytes. -/

namespace Npk

/-- Big-endian encoding of `v` in `w` bytes (Rust `to_be_bytes` of the
exact-width integer holding `v`). -/
def beBytes : Nat → Nat → List Nat
  | 0, _ => []
  | w + 1, v => beBytes w (v / 256) ++ [v % 256]

/-- Big-endian decoding (Rust `from_be_bytes`). -/
def fromBE (l : List Nat) : Nat :=
  l.foldl (fun a b => a * 256 + b) 0

/-- Rust `read_exact` into an `n`-byte buffer: `none` is the I/O error on
truncated input. -/
def readN (n : Nat) (l : List Nat) : Option (List Nat × List Nat) :=
  if n ≤ l.length then some (l.take n, l.drop n) else none

/-- A lower-case ASCII byte (`u8::is_ascii_lowercase`). -/
def isLowerByte (b : Nat) : Bool := 97 ≤ b && b ≤ 122

/-- An ASCII digit byte (`u8::is_ascii_digit`). -/
def isDigitByte (b : Nat) : Bool := 48 ≤ b && b ≤ 57

/-- A UTF-8 continuation byte. -/
def isCont (b : Nat) : Bool := 128 ≤ b && b ≤ 191

/-- UTF-8 validity of a byte sequence: the success condition of Rust
`String::from_utf8` (including the surrogate and overlong-form
exclusions). -/
def validUtf8 : List Nat → Bool
  | [] => true
  | b :: rest =>
    if b ≤ 0x7F then validUtf8 rest
    else if 0xC2 ≤ b ∧ b ≤ 0xDF then
      match rest with
      | c1 :: r2 => isCont c1 && validUtf8 r2
      | [] => false
    else if b = 0xE0 then
      match rest with
      | c1 :: c2 :: r2 => (0xA0 ≤ c1 && c1 ≤ 0xBF) && isCont c2 && validUtf8 r2
      | _ => false
    else if 0xE1 ≤ b ∧ b ≤ 0xEC then
      match rest with
      | c1 :: c2 :: r2 => isCont c1 && isCont c2 && validUtf8 r2
      | _ => false
    else if b = 0xED then
      match rest with
      | c1 :: c2 :: r2 => (0x80 ≤ c1 && c1 ≤ 0x9F) && isCont c2 && validUtf8 r2
      | _ => false
    else if 0xEE ≤ b ∧ b ≤ 0xEF then
      match rest with
      | c1 :: c2 :: r2 => isCont c1 && isCont c2 && validUtf8 r2
      | _ => false
    else if b = 0xF0 then
      match rest with
      | c1 :: c2 :: c3 :: r2 =>
        (0x90 ≤ c1 && c1 ≤ 0xBF) && isCont c2 && isCont c3 && validUtf8 r2
      | _ => false
    else if 0xF1 ≤ b ∧ b ≤ 0xF3 then
      match rest with
      | c1 :: c2 :: c3 :: r2 => isCont c1 && isCont c2 && isCont c3 && validUtf8 r2
      | _ => false
    else if b = 0xF4 then
      match rest with
      | c1 :: c2 :: c3 :: r2 =>
        (0x80 ≤ c1 && c1 ≤ 0x8F) && isCont c2 && isCont c3 && validUtf8 r2
      | _ => false
    else false

/-- Errors of unpacking, collapsing the variants of `PackageUnpackError`,
`LibraryUnpackError`, `TypeDeserializeError`, `DependencyError` and
`PackageNameError` that the round-trip claims distinguish. -/
inductive Err where
  | readFailed
  | notNitroPackage
  | notNitroLibrary
  | invalidName
  | unknownEntry (v : Nat)
  | unknownLibEntry (v : Nat)
  | unknownTypeEntry (v : Nat)
  | unknownFuncEntry (v : Nat)
  | unknownParamEntry (v : Nat)
  | invalidString
  | invalidType
  | dupFunc
  | ambiguity
  | missingField
  | invalidSystemName
  | fuelOut
deriving DecidableEq, Repr

/-- pkg/meta.rs `PackageVersion` (three u16 fields). -/
structure Version where
  major : Nat
  minor : Nat
  patch : Nat
deriving DecidableEq, Repr

/-- Fields fit in u16. -/
def Version.wf (v : Version) : Bool :=
  v.major < 2 ^ 16 && v.minor < 2 ^ 16 && v.patch < 2 ^ 16

/-- pkg/meta.rs `PackageVersion::to_bin`: `major<<32 | minor<<16 | patch`. -/
def Version.toBin (v : Version) : Nat :=
  v.major <<< 32 ||| v.minor <<< 16 ||| v.patch

/-- pkg/meta.rs `PackageVersion::from_bin`: the three `as u16` truncations. -/
def Version.fromBin (b : Nat) : Version :=
  ⟨b >>> 32 % 2 ^ 16, b >>> 16 % 2 ^ 16, b % 2 ^ 16⟩

/-- Validity of a package name's bytes (pkg/meta.rs `PackageName::from_str`):
non-empty, at most 32 bytes, a lower-case ASCII first, lower-case ASCII or
digits after.  The source decodes UTF-8 first and then checks the
characters; since the accepted alphabet is ASCII, the byte-level check
accepts and rejects exactly the same byte sequences. -/
def nameWf (n : List Nat) : Bool :=
  match n with
  | [] => false
  | c :: rest =>
    decide (n.length ≤ 32) && isLowerByte c &&
      rest.all (fun b => isDigitByte b || isLowerByte b)

/-- pkg/meta.rs `PackageName::to_bin`: the name zero-padded to 32 bytes. -/
def nameToBin (n : List Nat) : List Nat :=
  n ++ List.replicate (32 - n.length) 0

/-- pkg/meta.rs `PackageName::from_bin`: the bytes before the first zero,
validated. -/
def nameFromBin (b : List Nat) : Except Err (List Nat) :=
  let name := b.takeWhile (fun x => x ≠ 0)
  if nameWf name then .ok name else .error .invalidName

/-- pkg/dep.rs `Dependency`. -/
structure Dep where
  name : List Nat
  version : Version
deriving DecidableEq, Repr

/-- Validity of a dependency. -/
def Dep.wf (d : Dep) : Bool := nameWf d.name && d.version.wf

/-- pkg/dep.rs `Dependency::serialize`: the 32-byte name then the u64
version. -/
def Dep.ser (d : Dep) : List Nat :=
  nameToBin d.name ++ beBytes 8 d.version.toBin

/-- pkg/dep.rs `Dependency::deserialize`. -/
def Dep.deser (l : List Nat) : Except Err (Dep × List Nat) := do
  let some (nb, l1) := readN 32 l | .error .readFailed
  let name ← nameFromBin nb
  let some (vb, l2) := readN 8 l1 | .error .readFailed
  .ok (⟨name, Version.fromBin (fromBE vb)⟩, l2)

/-- The count-driven dependency loop of `Package::unpack` (lines 300-312). -/
def readDeps : Nat → List Nat → Except Err (List Dep × List Nat)
  | 0, l => .ok ([], l)
  | n + 1, l => do
    let (d, l1) ← Dep.deser l
    let (ds, l2) ← readDeps n l1
    .ok (d :: ds, l2)

/-- Validity of a pkg/ty.rs `Type` for serialization: pointer level fits a
u8, an external package name fits a u8 and is non-empty valid UTF-8 with a
u16 major version, and the type name fits a u16 and is valid UTF-8. -/
def tyWf : PkgType (List Nat) → Bool
  | .unit ptr => ptr < 256
  | .never => true
  | .struc ptr pkg name => tyBasicWf ptr pkg name
  | .cls ptr pkg name => tyBasicWf ptr pkg name
where
  /-- Common struct/class validity. -/
  tyBasicWf (ptr : Nat) (pkg : Option (List Nat × Nat)) (name : List Nat) : Bool :=
    ptr < 256 &&
      (match pkg with
       | some (p, ver) =>
         decide (0 < p.length) && decide (p.length < 256) && validUtf8 p && decide (ver < 2 ^ 16)
       | none => true) &&
      decide (name.length < 2 ^ 16) && validUtf8 name

/-- pkg/ty.rs `Type::serialize`: category byte (0 unit / 1 struct /
2 class / 3 never), pointer level, package reference, length-prefixed
name. -/
def tySer : PkgType (List Nat) → Option (List Nat)
  | .unit ptr => if ptr < 256 then some [0, ptr] else none
  | .never => some [3]
  | .struc ptr pkg name => tySerBasic 1 ptr pkg name
  | .cls ptr pkg name => tySerBasic 2 ptr pkg name
where
  /-- Common struct/class serialization. -/
  tySerBasic (cat ptr : Nat) (pkg : Option (List Nat × Nat)) (name : List Nat) :
      Option (List Nat) :=
    if ptr < 256 then
      (match pkg with
       | some (p, ver) =>
         if p.length < 256 ∧ ver < 2 ^ 16 then some ([p.length] ++ p ++ beBytes 2 ver) else none
       | none => some [0]).map fun pkgBytes =>
        [cat, ptr] ++ pkgBytes ++ beBytes 2 name.length ++ name
    else none

/-- pkg/ty.rs `Type::deserialize`: category, pointer level, package
(length-prefixed with u16 version when the length byte is non-zero), then
the u16-length-prefixed name; any other category is `None`.  The source
returns `Option`; the distinct `Err` values merely name which read failed. -/
def tyDeser (l : List Nat) : Except Err (PkgType (List Nat) × List Nat) := do
  let some (catB, l1) := readN 1 l | .error .invalidType
  let cat := catB.headD 0
  if cat = 3 then .ok (.never, l1)
  else do
    let some (ptrB, l2) := readN 1 l1 | .error .invalidType
    let ptr := ptrB.headD 0
    if cat = 0 then .ok (.unit ptr, l2)
    else do
      let some (lenB, l3) := readN 1 l2 | .error .invalidType
      let len := lenB.headD 0
      let (pkg, l5) ←
        if len = 0 then pure (none, l3)
        else do
          let some (p, l4) := readN len l3 | .error .invalidType
          if validUtf8 p then do
            let some (vb, l5) := readN 2 l4 | .error .invalidType
            pure (some (p, fromBE vb), l5)
          else .error .invalidType
      let some (nl, l6) := readN 2 l5 | .error .invalidType
      let some (name, l7) := readN (fromBE nl) l6 | .error .invalidType
      if validUtf8 name then
        if cat = 1 then .ok (.struc ptr pkg name, l7)
        else if cat = 2 then .ok (.cls ptr pkg name, l7)
        else .error .invalidType
      else .error .invalidType

/-- Sequential serialization of a list to one byte stream (each element's
`serialize` writes to the shared writer in order); `none` if any element
panics. -/
def serList (g : α → Option (List Nat)) : List α → Option (List Nat)
  | [] => some []
  | x :: tl => do
    let b ← g x
    let bs ← serList g tl
    some (b ++ bs)

/-- Validity of a pkg/ty.rs `FunctionParam` for serialization. -/
def paramWf (p : PkgParam (List Nat)) : Bool :=
  decide (p.name.length < 256) && validUtf8 p.name && tyWf p.ty

/-- pkg/ty.rs `FunctionParam::serialize`: NAME (u8 length), TYPE, END. -/
def paramSer (p : PkgParam (List Nat)) : Option (List Nat) := do
  let tb ← tySer p.ty
  if p.name.length < 256 then
    some ([1, p.name.length] ++ p.name ++ [2] ++ tb ++ [0])
  else none

/-- The entry loop of pkg/ty.rs `FunctionParam::deserialize`, carrying the
name and type slots; fuel bounds the number of iterations. -/
def deserParamGo : Nat → List Nat → Option (List Nat) → Option (PkgType (List Nat)) →
    Except Err (PkgParam (List Nat) × List Nat)
  | 0, _, _, _ => .error .fuelOut
  | f + 1, l, nameS, tyS => do
    let some (tagB, l1) := readN 1 l | .error .readFailed
    match tagB.headD 0 with
    | 0 =>
      match nameS, tyS with
      | some n, some t => .ok (⟨n, t⟩, l1)
      | _, _ => .error .missingField
    | 1 => do
      let some (lenB, l2) := readN 1 l1 | .error .readFailed
      let some (buf, l3) := readN (lenB.headD 0) l2 | .error .readFailed
      if validUtf8 buf then deserParamGo f l3 (some buf) tyS
      else .error .invalidString
    | 2 => do
      let (t, l2) ← tyDeser l1
      deserParamGo f l2 nameS (some t)
    | v => .error (.unknownParamEntry v)

/-- pkg/ty.rs `FunctionParam::deserialize`. -/
def deserParam (f : Nat) (l : List Nat) : Except Err (PkgParam (List Nat) × List Nat) :=
  deserParamGo f l none none

/-- The count-driven parameter loop of `Function::deserialize` (lines
333-336). -/
def readParams (f : Nat) : Nat → List Nat →
    Except Err (List (PkgParam (List Nat)) × List Nat)
  | 0, l => .ok ([], l)
  | n + 1, l => do
    let (p, l1) ← deserParam f l
    let (ps, l2) ← readParams f n l1
    .ok (p :: ps, l2)

/-- Validity of a pkg/ty.rs `Function` for serialization. -/
def funcWf (fn : PkgFunc (List Nat)) : Bool :=
  decide (fn.name.length < 2 ^ 16) && validUtf8 fn.name && tyWf fn.ret &&
    decide (fn.params.length < 256) && fn.params.all paramWf

/-- pkg/ty.rs `Function::serialize`: NAME (u16 length), RET, PARAMS (u8
count then the parameters), END. -/
def funcSer (fn : PkgFunc (List Nat)) : Option (List Nat) := do
  let rb ← tySer fn.ret
  let pbs ← serList paramSer fn.params
  if fn.name.length < 2 ^ 16 ∧ fn.params.length < 256 then
    some ([1] ++ beBytes 2 fn.name.length ++ fn.name ++ [2] ++ rb
      ++ [3, fn.params.length] ++ pbs ++ [0])
  else none

/-- The entry loop of pkg/ty.rs `Function::deserialize` (lines 293-347). -/
def deserFuncGo : Nat → List Nat → Option (List Nat) →
    List (PkgParam (List Nat)) → Option (PkgType (List Nat)) →
    Except Err (PkgFunc (List Nat) × List Nat)
  | 0, _, _, _, _ => .error .fuelOut
  | f + 1, l, nameS, params, retS => do
    let some (tagB, l1) := readN 1 l | .error .readFailed
    match tagB.headD 0 with
    | 0 =>
      match nameS, retS with
      | some n, some r => .ok (⟨n, params, r⟩, l1)
      | _, _ => .error .missingField
    | 1 => do
      let some (lenB, l2) := readN 2 l1 | .error .readFailed
      let some (buf, l3) := readN (fromBE lenB) l2 | .error .readFailed
      if validUtf8 buf then deserFuncGo f l3 (some buf) params retS
      else .error .invalidString
    | 2 => do
      let (t, l2) ← tyDeser l1
      deserFuncGo f l2 nameS params (some t)
    | 3 => do
      let some (cntB, l2) := readN 1 l1 | .error .readFailed
      let (ps, l3) ← readParams f (cntB.headD 0) l2
      deserFuncGo f l3 nameS (params ++ ps) retS
    | v => .error (.unknownFuncEntry v)

/-- pkg/ty.rs `Function::deserialize`. -/
def deserFunc (f : Nat) (l : List Nat) : Except Err (PkgFunc (List Nat) × List Nat) :=
  deserFuncGo f l none [] none

/-- Pairwise distinctness of function names within one type declaration
(the `HashSet<Function>` with name-based equality never holds two functions
of the same name). -/
def funcNamesNodup : List (PkgFunc (List Nat)) → Bool
  | [] => true
  | fn :: rest => !(rest.any fun g => g.name = fn.name) && funcNamesNodup rest

/-- The count-driven function loop of `TypeDeclaration::deserialize` (lines
103-107): each parsed function is inserted into the accumulated set,
erroring on a duplicate name (`funcs.replace` returning `Some`). -/
def readFns (f : Nat) : Nat → List Nat → List (PkgFunc (List Nat)) →
    Except Err (List (PkgFunc (List Nat)) × List Nat)
  | 0, l, acc => .ok (acc, l)
  | n + 1, l, acc => do
    let (fn, l1) ← deserFunc f l
    if acc.any (fun g => g.name = fn.name) then .error .dupFunc
    else readFns f n l1 (acc ++ [fn])

/-- A published type declaration (pkg/ty.rs `TypeDeclaration::Basic` over
`BasicType`): the class marker, the attribute slots (`Attributes`), the
fully-qualified name and the function set (embedded as a list). -/
structure TypeDecl where
  isClass : Bool
  pubV : Option Public
  extV : Option ExternAbi
  reprV : Option Repre
  name : List Nat
  funcs : List (PkgFunc (List Nat))
deriving DecidableEq, Repr

/-- The attribute slots after deserialization (pkg/ty.rs lines 117-136 set
all of them to `None`: attributes are not serialized). -/
def TypeDecl.strip (d : TypeDecl) : TypeDecl :=
  { d with pubV := none, extV := none, reprV := none }

/-- Validity of a type declaration for serialization. -/
def tdWf (d : TypeDecl) : Bool :=
  decide (d.name.length < 2 ^ 16) && validUtf8 d.name &&
    decide (d.funcs.length < 2 ^ 32) && d.funcs.all funcWf && funcNamesNodup d.funcs

/-- pkg/ty.rs `TypeDeclaration::serialize`: NAME (u16 length), the
STRUCT/CLASS marker, FUNC (u32 count then the functions), END. -/
def tdSer (d : TypeDecl) : Option (List Nat) := do
  let fbs ← serList funcSer d.funcs
  if d.name.length < 2 ^ 16 ∧ d.funcs.length < 2 ^ 32 then
    some ([1] ++ beBytes 2 d.name.length ++ d.name ++ [if d.isClass then 3 else 2]
      ++ [4] ++ beBytes 4 d.funcs.length ++ fbs ++ [0])
  else none

/-- The entry loop of pkg/ty.rs `TypeDeclaration::deserialize` (lines
60-140), carrying the name slot, the struct/class markers and the function
set. -/
def tdDeserGo : Nat → List Nat → Option (List Nat) → Bool → Bool →
    List (PkgFunc (List Nat)) → Except Err (TypeDecl × List Nat)
  | 0, _, _, _, _, _ => .error .fuelOut
  | f + 1, l, nameS, struc, cls, funcs => do
    let some (tagB, l1) := readN 1 l | .error .readFailed
    match tagB.headD 0 with
    | 0 =>
      match nameS with
      | none => .error .missingField
      | some n =>
        match struc, cls with
        | true, true => .error .ambiguity
        | false, false => .error .ambiguity
        | true, false => .ok (⟨false, none, none, none, n, funcs⟩, l1)
        | false, true => .ok (⟨true, none, none, none, n, funcs⟩, l1)
    | 1 => do
      let some (lenB, l2) := readN 2 l1 | .error .readFailed
      let some (buf, l3) := readN (fromBE lenB) l2 | .error .readFailed
      if validUtf8 buf then tdDeserGo f l3 (some buf) struc cls funcs
      else .error .invalidString
    | 2 => tdDeserGo f l1 nameS true cls funcs
    | 3 => tdDeserGo f l1 nameS struc true funcs
    | 4 => do
      let some (cntB, l2) := readN 4 l1 | .error .readFailed
      let (fns, l3) ← readFns f (fromBE cntB) l2 funcs
      tdDeserGo f l3 nameS struc cls fns
    | v => .error (.unknownTypeEntry v)

/-- pkg/ty.rs `TypeDeclaration::deserialize`. -/
def tdDeser (f : Nat) (l : List Nat) : Except Err (TypeDecl × List Nat) :=
  tdDeserGo f l none false false []

/-- The count-driven type loop of `Library::unpack` (lines 159-164); the
source re-serializes each declaration into the unpacked `types` file, so
the parsed list is what that file holds. -/
def readTDs (f : Nat) : Nat → List Nat → List TypeDecl →
    Except Err (List TypeDecl × List Nat)
  | 0, l, acc => .ok (acc, l)
  | n + 1, l, acc => do
    let (d, l1) ← tdDeser f l
    readTDs f n l1 (acc ++ [d])

/-- A library's binary (pkg/lib.rs `LibraryBinary`): the bundled shared
object's bytes, or a system-library name. -/
inductive LibBin where
  | bundle (content : List Nat)
  | system (name : List Nat)
deriving DecidableEq, Repr

/-- A library (pkg/lib.rs `Library`): binary plus published types. -/
structure Lib where
  bin : LibBin
  types : List TypeDecl
deriving DecidableEq, Repr

/-- Validity of a library for serialization. -/
def libWf (lb : Lib) : Bool :=
  decide (lb.types.length < 2 ^ 32) && lb.types.all tdWf &&
    (match lb.bin with
     | .bundle _ => true
     | .system n => decide (n.length < 2 ^ 16) && validUtf8 n)

/-- The zstd compressor (zstd/mod.rs `ZstdWriter`): an external lossless
codec, modelled as the identity on byte streams. -/
def zstdC (b : List Nat) : List Nat := b

/-- The zstd decompressor (zstd/read.rs `ZstdReader`), the inverse codec. -/
def zstdD (b : List Nat) : List Nat := b

/-- pkg/lib.rs `Library::serialize`: the `\x7FNLM` magic, the TYPES entry
(u32 count then the declarations), then for a bundled binary the END entry
followed by the raw binary bytes, or for a system library the SYSTEM entry
(u16 name length, name) followed by END. -/
def libSer (lb : Lib) : Option (List Nat) := do
  let tbs ← serList tdSer lb.types
  let binPart ←
    match lb.bin with
    | .bundle c => some ([0] ++ c)
    | .system n =>
      if n.length < 2 ^ 16 then some ([2] ++ beBytes 2 n.length ++ n ++ [0]) else none
  if lb.types.length < 2 ^ 32 then
    some ([0x7F, 0x4E, 0x4C, 0x4D] ++ [1] ++ beBytes 4 lb.types.length
      ++ tbs ++ binPart)
  else none

/-- The entry loop of pkg/lib.rs `Library::unpack` (lines 143-198),
returning the parsed declarations and the content written to the `bin`
file: after END, a recorded system name yields the `\x7FNLS<name>` stub,
else the remaining bytes are copied verbatim. -/
def libUnpackGo : Nat → List Nat → List TypeDecl → Option (List Nat) →
    Except Err (List TypeDecl × List Nat)
  | 0, _, _, _ => .error .fuelOut
  | f + 1, l, types, sys => do
    let some (tagB, l1) := readN 1 l | .error .readFailed
    match tagB.headD 0 with
    | 0 =>
      match sys with
      | some n => .ok (types, [0x7F, 0x4E, 0x4C, 0x53] ++ n)
      | none => .ok (types, l1)
    | 1 => do
      let some (cntB, l2) := readN 4 l1 | .error .readFailed
      let (tds, l3) ← readTDs f (fromBE cntB) l2 types
      libUnpackGo f l3 tds sys
    | 2 => do
      let some (lenB, l2) := readN 2 l1 | .error .readFailed
      let some (buf, l3) := readN (fromBE lenB) l2 | .error .readFailed
      if validUtf8 buf then libUnpackGo f l3 types (some buf)
      else .error .invalidSystemName
    | v => .error (.unknownLibEntry v)

/-- pkg/lib.rs `Library::unpack`: magic check, then the entry loop. -/
def libUnpack (f : Nat) (l : List Nat) : Except Err (List TypeDecl × List Nat) := do
  let some (magic, l1) := readN 4 l | .error .readFailed
  if magic = [0x7F, 0x4E, 0x4C, 0x4D] then libUnpackGo f l1 [] none
  else .error .notNitroLibrary

/-- A package (pkg/mod.rs `Package`): metadata plus per-target executables
and libraries.  `Binary<T>` bundles a payload with its dependency set; the
executable payload (a produced file's path) takes no part in `pack`, which
never serializes executables, so only the executables' target ids and
dependency sets are carried. -/
structure Package where
  name : List Nat
  version : Version
  exes : List (List Nat × List Dep)
  libs : List (List Nat × Lib × List Dep)
deriving Repr

/-- Validity of one library entry for packing: a 16-byte target id, a
valid library, valid dependencies whose count fits a u16, and a serialized
frame fitting the u32 length field. -/
def libEntryWf (e : List Nat × Lib × List Dep) : Bool :=
  decide (e.1.length = 16) && libWf e.2.1 && e.2.2.all Dep.wf &&
    decide (e.2.2.length < 2 ^ 16) &&
    (match libSer e.2.1 with
     | some frame => decide ((zstdC frame).length < 2 ^ 32)
     | none => false)

/-- Validity of a package for packing: a valid name and version, 16-byte
target ids, valid dependencies, dependency counts fitting a u16, valid
libraries whose serialized frames fit the u32 length field, and at least
one binary (the `assert!` in `Package::new`). -/
def Package.wf (p : Package) : Bool :=
  nameWf p.name && p.version.wf && (!p.exes.isEmpty || !p.libs.isEmpty) &&
    p.exes.all (fun e => decide (e.1.length = 16) && e.2.all Dep.wf &&
      decide (e.2.length < 2 ^ 16)) &&
    p.libs.all libEntryWf

/-- The serialized form of one library entry of `Package::pack` (lines
91-128): the LIB tag, the 16-byte target id, the u16 dependency count and
the dependencies, the u32 length of the zstd frame, then the frame. -/
def packLibEntry (e : List Nat × Lib × List Dep) : Option (List Nat) := do
  let frame ← libSer e.2.1
  let z := zstdC frame
  if e.2.2.length < 2 ^ 16 ∧ z.length < 2 ^ 32 then
    some ([5] ++ e.1 ++ beBytes 2 e.2.2.length ++ (e.2.2.map Dep.ser).flatten
      ++ beBytes 4 z.length ++ z)
  else none

/-- pkg/mod.rs `Package::pack` (lines 58-134): the `\x7FNPK` magic, the
NAME, VERSION and DATE entries, one LIB entry per library, then END.
Executables are not written: the function iterates `self.libs` only and no
EXE tag exists in this revision.  `none` models the `try_into().unwrap()`
panics on oversized counts. -/
def Package.pack (p : Package) (date : Nat) : Option (List Nat) := do
  let libParts ← serList packLibEntry p.libs
  some ([0x7F, 0x4E, 0x50, 0x4B]
    ++ [1] ++ nameToBin p.name
    ++ [2] ++ beBytes 8 p.version.toBin
    ++ [3] ++ beBytes 8 date
    ++ libParts ++ [0])

/-- What unpacking materializes (pkg/mod.rs `Package::unpack` writes
`meta.yml` from the name and version and, per library entry,
`libs/<target>/{deps.yml, types, bin}`): the name, the version, and per
target the dependency list, the type declarations and the binary file
content. -/
structure Unpacked where
  name : List Nat
  version : Version
  libs : List (List Nat × List Dep × List TypeDecl × List Nat)
deriving DecidableEq, Repr

/-- The entry loop of pkg/mod.rs `Package::unpack` (lines 256-339),
carrying the name and version slots and the accumulated library entries.
The binary length caps the zstd frame (`take(len)`), consuming exactly
`len` bytes of the outer stream. -/
def unpackGo : Nat → List Nat → Option (List Nat) → Option Version →
    List (List Nat × List Dep × List TypeDecl × List Nat) → Except Err Unpacked
  | 0, _, _, _, _ => .error .fuelOut
  | f + 1, l, nameS, verS, acc => do
    let some (tagB, l1) := readN 1 l | .error .readFailed
    match tagB.headD 0 with
    | 0 =>
      match nameS, verS with
      | some n, some v => .ok ⟨n, v, acc⟩
      | _, _ => .error .missingField
    | 1 => do
      let some (nb, l2) := readN 32 l1 | .error .readFailed
      let n ← nameFromBin nb
      unpackGo f l2 (some n) verS acc
    | 2 => do
      let some (vb, l2) := readN 8 l1 | .error .readFailed
      unpackGo f l2 nameS (some (Version.fromBin (fromBE vb))) acc
    | 3 => do
      let some (_, l2) := readN 8 l1 | .error .readFailed
      unpackGo f l2 nameS verS acc
    | 5 => do
      let some (u, l2) := readN 16 l1 | .error .readFailed
      let some (ndB, l3) := readN 2 l2 | .error .readFailed
      let (deps, l4) ← readDeps (fromBE ndB) l3
      let some (lenB, l5) := readN 4 l4 | .error .readFailed
      let some (frame, l6) := readN (fromBE lenB) l5 | .error .readFailed
      let (types, bin) ← libUnpack (f + 1) (zstdD frame)
      unpackGo f l6 nameS verS (acc ++ [(u, deps, types, bin)])
    | v => .error (.unknownEntry v)

/-- pkg/mod.rs `Package::unpack`: magic check, then the entry loop; the
fuel bound exceeds the number of entries any input can encode. -/
def Package.unpack (l : List Nat) : Except Err Unpacked := do
  let some (magic, l1) := readN 4 l | .error .readFailed
  if magic = [0x7F, 0x4E, 0x50, 0x4B] then unpackGo (l.length + 16) l1 none none []
  else .error .notNitroPackage

/-- The binary file `Library::unpack` materializes: the bundled bytes, or
the `\x7FNLS` stub for a system library. -/
def binOut (lb : Lib) : List Nat :=
  match lb.bin with
  | .bundle c => c
  | .system n => [0x7F, 0x4E, 0x4C, 0x53] ++ n

/-- The unpacked artifact a library entry of package `p` should produce:
the dependency list, the declarations with their attribute slots cleared,
and the binary file. -/
def expectedLib (e : List Nat × Lib × List Dep) :
    List Nat × List Dep × List TypeDecl × List Nat :=
  (e.1, e.2.2, e.2.1.types.map TypeDecl.strip, binOut e.2.1)

/-- Fixture: parameter `x: *()`. -/
def wParam : PkgParam (List Nat) := ⟨[120], .unit 1⟩

/-- Fixture: function `M(x: *()): !`. -/
def wFunc : PkgFunc (List Nat) := ⟨[77], [wParam], .never⟩

/-- Fixture: function `N(): **d.S.T` against an external package. -/
def wFunc2 : PkgFunc (List Nat) := ⟨[78], [], .struc 2 (some ([100], 7)) [83, 46, 84]⟩

/-- Fixture: a published struct `S.T` carrying attributes. -/
def wTd : TypeDecl := ⟨false, some .externalVis, some .c, some .i32, [83, 46, 84], [wFunc, wFunc2]⟩

/-- Fixture: a published class `C` with no functions. -/
def wTd2 : TypeDecl := ⟨true, none, none, none, [67], []⟩

/-- Fixture: a system library `c` publishing two types. -/
def wLib : Lib := ⟨.system [99], [wTd, wTd2]⟩

/-- Fixture: a bundled library with raw binary content. -/
def wLib2 : Lib := ⟨.bundle [1, 2, 3], []⟩

/-- Fixture: a dependency on package `b` version 1.2.3. -/
def wDep : Dep := ⟨[98], ⟨1, 2, 3⟩⟩

/-- Fixture: package `a` v0.1.0 with two library targets. -/
def wPkg : Package := ⟨[97], ⟨0, 1, 0⟩, [],
  [(List.replicate 16 0, wLib, [wDep]), (List.replicate 16 1, wLib2, [])]⟩

/-- The bytes `Package::pack` writes for `wPkg`. -/
def wBytes : List Nat := (Package.pack wPkg 0).getD []

/-- Fixture: a package holding only an executable entry (one target with a
dependency) and no libraries. -/
def exePkg : Package := ⟨[101], ⟨1, 0, 0⟩, [(List.replicate 16 2, [wDep])], []⟩

/-- The bytes `Package::pack` writes for `exePkg`. -/
def exeBytes : List Nat := (Package.pack exePkg 0).getD []

end Npk

-- ===================== THEOREMS =====================

/-- Claim C2 counterexample: on the Win32 primitive target — the one target
whose OS the claim says must compile the type — the build predicate
`@if(os == "windows")` evaluates to `Ok(false)`, so the type is skipped and
its functions never reach the module symbol table.  `TargetOs::name` for
`Win32` is `"win32"`, which the string `"windows"` never equals. -/
theorem c2_cex :
    typeIsCompiled
      (Attributes.mk none (some (⟨⟨0, 1⟩, "if"⟩, condOsEqWindows ⟨0, 1⟩)) none none none [])
      TargetOs.win32 = .ok false ∧ TargetOs.win32.name = "win32" := by
  constructor
  · rfl
  · rfl

/-- Claim C2 as amended: a type annotated `@if(os == "windows")` is skipped
on every primitive target, because no primitive target OS is named
`"windows"` (the Win32 OS name is `"win32"`); a type annotated
`@if(os == "win32")` is compiled exactly on the targets whose OS is Win32. -/
theorem c2_if_windows_never_compiled (t : PrimTarget) (s : Span) :
    t ∈ PrimTarget.all →
    runCondition (condOsEqWindows s) t.os = .ok false ∧
      (runCondition (condOsEqWin32 s) t.os = .ok true ↔ t.os = .win32) := by
  intro ht
  fin_cases ht <;> simp [runCondition, condOsEqWindows, condOsEqWin32, TargetOs.name]

/-- Witness for `c2_if_windows_never_compiled` at the Win32 target. -/
theorem c2_if_windows_never_compiled_witness :
    runCondition (condOsEqWindows ⟨0, 1⟩) (PrimTarget.mk .x86s64 .pc .win32 (some .msvc)).os
        = .ok false ∧
      (runCondition (condOsEqWin32 ⟨0, 1⟩) (PrimTarget.mk .x86s64 .pc .win32 (some .msvc)).os
          = .ok true ↔ (PrimTarget.mk .x86s64 .pc .win32 (some .msvc)).os = .win32) :=
  c2_if_windows_never_compiled (PrimTarget.mk .x86s64 .pc .win32 (some .msvc)) ⟨0, 1⟩
    (by simp [PrimTarget.all])

/-- The reverse-scan-with-break of `Codegen::resolve` returns exactly the
last declared matching `use`. -/
theorem scanUses_eq_lastMatch (uses : List UseDecl) (x : String) :
    scanUses uses x = (uses.filter (fun u => u.matches x)).getLast? := by
  induction uses with
  | nil => rfl
  | cons u rest ih =>
    simp only [scanUses, List.reverse_cons, List.find?_append, List.filter_cons] at *
    cases h : u.matches x with
    | true =>
      simp only [h, if_pos rfl]
      cases hrest : (rest.filter (fun u => u.matches x)).getLast? with
      | none =>
        have : rest.reverse.find? (fun u => u.matches x) = none := by
          rw [ih] at *; simp [hrest]
        simp [this, List.find?, h, List.getLast?_cons, hrest]
      | some v =>
        have : rest.reverse.find? (fun u => u.matches x) = some v := by
          rw [ih] at *; simp [hrest]
        simp [this, List.getLast?_cons, hrest]
    | false =>
      cases hrest : (rest.filter (fun u => u.matches x)).getLast? with
      | none =>
        have h2 : rest.reverse.find? (fun u => u.matches x) = none := by
          rw [ih] at *; simp [hrest]
        simp [h2, List.find?, h, hrest]
      | some v =>
        have h2 : rest.reverse.find? (fun u => u.matches x) = some v := by
          rw [ih] at *; simp [hrest]
        simp [h2, h, hrest]

/-- Claim C4: for every use list and local identifier `X`, `Codegen::resolve`
returns the fully-qualified name of the last declared `use` whose rename (if
present) or last path segment equals `X`; with no matching `use` it falls
back to `self.<namespace>.X` (`self.X` when the namespace is empty); and it
returns undefined (`none`) exactly when the computed key is absent from the
resolver. -/
theorem c4_resolve_spec (rs : TypeResolver) (ns : String) (uses : List UseDecl)
    (x : String) (sp : Span) :
    codegenResolve rs ns uses ⟨[x], sp⟩ = specResolve rs ns uses x := by
  simp only [codegenResolve, specResolve, resolveFullName, AstPath.asLocal,
    scanUses_eq_lastMatch]

/-- The pointer-prefix loop stops at the first non-asterisk token and pushes
it back. -/
theorem starsLoop_stops (stars : List Span) (t : Tok) (rest : List Tok) (l0 : Option Span)
    (h : ∀ s, t ≠ .asterisk s) :
    starsLoop (stars.map .asterisk ++ t :: rest) l0 = .ok (stars, ⟨t :: rest, none⟩) := by
  induction stars generalizing l0 with
  | nil => cases t <;> simp_all [starsLoop]
  | cons s ss ih => simp [starsLoop, ih, Except.map]

/-- Claim C7 counterexample: parsing the token sequence `*!` SUCCEEDS — it
returns `Ok` with a `Never` type carrying one pointer prefix — whereas the
claim says it returns a `SyntaxError`.  ast/mod.rs `parse_type` has no
check against `!` after `*` prefixes. -/
theorem c7_cex :
    parseType ⟨[.asterisk ⟨0, 1⟩, .exclam ⟨1, 1⟩], none⟩ =
      .ok (⟨[⟨0, 1⟩], .neverTN ⟨1, 1⟩⟩, ⟨[], some ⟨1, 1⟩⟩) := by
  rfl

/-- Claim C7 as amended: the parser accepts zero-or-more `*` prefixes
followed by `!`, `()`, or an identifier; `*!` (any number of `*` directly
followed by `!`) is accepted as a pointer-prefixed `Never` type rather than
rejected.  (A multi-segment dotted path trips the `Path::new` component
ordering assertion in this revision — `parse_type` pushes each `.` before
the identifier it follows — shown by the last conjunct.) -/
theorem c7_parse_type :
    (∀ (stars : List Span) (s : Span) (rest : List Tok) (l0 : Option Span),
      parseType ⟨stars.map .asterisk ++ .exclam s :: rest, l0⟩ =
        .ok (⟨stars, .neverTN s⟩, ⟨rest, some s⟩)) ∧
    (∀ (stars : List Span) (o c : Span) (rest : List Tok) (l0 : Option Span),
      parseType ⟨stars.map .asterisk ++ .openP o :: .closeP c :: rest, l0⟩ =
        .ok (⟨stars, .unitTN o c⟩, ⟨rest, some c⟩)) ∧
    (∀ (stars : List Span) (s : Span) (v : String) (l0 : Option Span),
      parseType ⟨stars.map .asterisk ++ [.ident s v], l0⟩ =
        .ok (⟨stars, .identTN ⟨[v], s⟩⟩, ⟨[], some s⟩)) ∧
    parseType ⟨[.ident ⟨0, 1⟩ "a", .dot ⟨1, 1⟩, .ident ⟨2, 1⟩ "b"], none⟩ =
      .error .panicked := by
  refine ⟨fun stars s rest l0 => ?_, fun stars o c rest l0 => ?_,
    fun stars s v l0 => ?_, by rfl⟩
  · have h := starsLoop_stops stars (.exclam s) rest l0 (by intro s2; simp)
    simp [parseType, h, LexState.nextTok, Except.bind, bind, Tok.span]
  · have h := starsLoop_stops stars (.openP o) (.closeP c :: rest) l0 (by intro s2; simp)
    simp [parseType, h, LexState.nextTok, nextCp, Except.bind, bind, Tok.span]
  · have h := starsLoop_stops stars (.ident s v) [] l0 (by intro s2; simp)
    simp [parseType, h, LexState.nextTok, pathLoop, pathNew, pathAlternates,
      Tok.isIdentTok, Tok.isSelfKw, Tok.componentValue, Except.bind, bind, Tok.span]

/-- Claim C10: a second occurrence of the same built-in attribute on one
item is rejected with a SyntaxError "multiple … attribute is not allowed"
anchored at the duplicated attribute's span.  The first five conjuncts show
`parse_single` rejecting each of `@entry`, `@ext`, `@if`, `@pub` and
`@repr` whenever its slot is already filled, before consuming any argument;
the last three run `Attributes::parse` end to end on `@entry @entry …`,
`@if(unix) @if(unix) …` and `@repr(i32) @repr(u8) …`. -/
theorem c10_duplicate_attr_rejected :
    (∀ (f : Nat) (st : LexState) (sp : Span) (p : Option (AttrName × Public))
        (c : Option (AttrName × List Expression)) (e : Option (AttrName × ExternAbi))
        (r : Option (AttrName × Repre)) (prev : AttrName)
        (cs : List (AttrName × Option (List (List Expression)))),
      parseAttrSingle (f + 1) (.mk p c e r (some prev) cs) ⟨sp, "entry"⟩ st =
        .error (.syn ⟨sp, "multiple entry attribute is not allowed"⟩)) ∧
    (∀ (f : Nat) (st : LexState) (sp : Span) (p : Option (AttrName × Public))
        (c : Option (AttrName × List Expression)) (prev : AttrName × ExternAbi)
        (r : Option (AttrName × Repre)) (en : Option AttrName)
        (cs : List (AttrName × Option (List (List Expression)))),
      parseAttrSingle (f + 1) (.mk p c (some prev) r en cs) ⟨sp, "ext"⟩ st =
        .error (.syn ⟨sp, "multiple ext attribute is not allowed"⟩)) ∧
    (∀ (f : Nat) (st : LexState) (sp : Span) (p : Option (AttrName × Public))
        (prev : AttrName × List Expression) (e : Option (AttrName × ExternAbi))
        (r : Option (AttrName × Repre)) (en : Option AttrName)
        (cs : List (AttrName × Option (List (List Expression)))),
      parseAttrSingle (f + 1) (.mk p (some prev) e r en cs) ⟨sp, "if"⟩ st =
        .error (.syn ⟨sp, "multiple if attribute is not allowed"⟩)) ∧
    (∀ (f : Nat) (st : LexState) (sp : Span) (prev : AttrName × Public)
        (c : Option (AttrName × List Expression)) (e : Option (AttrName × ExternAbi))
        (r : Option (AttrName × Repre)) (en : Option AttrName)
        (cs : List (AttrName × Option (List (List Expression)))),
      parseAttrSingle (f + 1) (.mk (some prev) c e r en cs) ⟨sp, "pub"⟩ st =
        .error (.syn ⟨sp, "multiple pub attribute is not allowed"⟩)) ∧
    (∀ (f : Nat) (st : LexState) (sp : Span) (p : Option (AttrName × Public))
        (c : Option (AttrName × List Expression)) (e : Option (AttrName × ExternAbi))
        (prev : AttrName × Repre) (en : Option AttrName)
        (cs : List (AttrName × Option (List (List Expression)))),
      parseAttrSingle (f + 1) (.mk p c e (some prev) en cs) ⟨sp, "repr"⟩ st =
        .error (.syn ⟨sp, "multiple repr attribute is not allowed"⟩)) ∧
    parseAttrs 8 ⟨⟨0, 6⟩, "entry"⟩ ⟨[.attr ⟨7, 6⟩ "entry", .kwFn ⟨14, 2⟩], none⟩ =
      .error (.syn ⟨⟨7, 6⟩, "multiple entry attribute is not allowed"⟩) ∧
    parseAttrs 8 ⟨⟨0, 3⟩, "if"⟩
        ⟨[.openP ⟨3, 1⟩, .ident ⟨4, 4⟩ "unix", .closeP ⟨8, 1⟩, .attr ⟨10, 3⟩ "if",
          .openP ⟨13, 1⟩, .ident ⟨14, 4⟩ "unix", .closeP ⟨18, 1⟩, .kwFn ⟨20, 2⟩], none⟩ =
      .error (.syn ⟨⟨10, 3⟩, "multiple if attribute is not allowed"⟩) ∧
    parseAttrs 8 ⟨⟨0, 5⟩, "repr"⟩
        ⟨[.openP ⟨5, 1⟩, .ident ⟨6, 3⟩ "i32", .closeP ⟨9, 1⟩, .attr ⟨11, 5⟩ "repr",
          .openP ⟨16, 1⟩, .ident ⟨17, 2⟩ "u8", .closeP ⟨19, 1⟩, .kwStruct ⟨21, 6⟩], none⟩ =
      .error (.syn ⟨⟨11, 5⟩, "multiple repr attribute is not allowed"⟩) := by
  refine ⟨fun f st sp p c e r prev cs => ?_, fun f st sp p c prev r en cs => ?_,
    fun f st sp p prev e r en cs => ?_, fun f st sp prev c e r en cs => ?_,
    fun f st sp p c e prev en cs => ?_, by rfl, by rfl, by rfl⟩
  · simp [parseAttrSingle, Attributes.entryAttr]
  · simp [parseAttrSingle, Attributes.extAttr]
  · simp [parseAttrSingle, Attributes.condAttr]
  · simp [parseAttrSingle, Attributes.pubAttr]
  · simp [parseAttrSingle, Attributes.reprAttr]

/-- Claim C5: an executable build requires exactly one `@entry` function
with zero parameters returning the `i32`-tagged primitive.  Lowering
`@entry fn Main(x: Int32): Int32` fails with the SyntaxError "the entry
point must have zero parameters" (of which the claim's quoted phrase
"entry point must have zero parameters" is a verbatim suffix), a second
entry fails with the multiple-entry error, an entry with a non-i32 return
fails with the return-type error, and the well-formed
`@entry fn Main(): Int32 { … }` builds and records the mangled entry.  All
four runs use a resolver exposing `self.Int32` as a `@repr(i32)` primitive
struct (ast/func.rs `Function::build`, lines 109-129). -/
theorem c5_entry_validation :
    AstFunction.build exeCg "App" [] mainBadParam =
        .error (.syn ⟨⟨10, 4⟩, "the entry point must have zero parameters"⟩) ∧
    ("entry point must have zero parameters").data.isSuffixOf
        ("the entry point must have zero parameters").data = true ∧
    AstFunction.build { exeCg with entry := "x" } "App" [] mainGood =
        .error (.syn ⟨⟨10, 4⟩, "more than one entry point has been defined"⟩) ∧
    AstFunction.build exeCg "App" [] mainRetUnit =
        .error (.syn ⟨⟨10, 4⟩, "the entry point must have nitro.Int32 as a return type"⟩) ∧
    AstFunction.build exeCg "App" [] mainGood =
        .ok (some ⟨"Main", [], PkgType.struc 0 none "Int32"⟩,
          { exeCg with
            entry := "_NIF3AppF4Main0SS5Int32",
            funcs := [⟨"_NIF3AppF4Main0SS5Int32", [], .i32t, false, false, [.retVoid]⟩] }) :=
  ⟨rfl, by decide, rfl, rfl, rfl⟩

/-- Claim C8 (code bug): lowering a function whose declared return type is
the Never type `!` emits it with backend void return type, but the emitted
function is NOT marked non-returning: ast/func.rs computes the `never` flag
(lines 97-107) and never uses it, and `llvm_function_set_noreturn`
(ffi.rs line 50) is declared but never called anywhere in the crate, so the
`noret` attribute stays `false` on both an extern declaration and a bodied
function returning `!`. -/
theorem c8_never_noreturn_not_set :
    AstFunction.build exeCg "App" [] neverFn =
        .ok (some ⟨"f", [], PkgType.never⟩,
          { exeCg with funcs := [⟨"f", [], .void, false, false, []⟩] }) ∧
    (IRFunc.mk "f" [] .void false false []).noret = false ∧
    (IRFunc.mk "f" [] .void false false []).ret = .void ∧
    AstFunction.build exeCg "App" [] neverBodyFn =
        .ok (some ⟨"g", [], PkgType.never⟩,
          { exeCg with funcs := [⟨"_NIF3AppF1g0N", [], .void, false, false, [.retVoid]⟩] }) :=
  ⟨rfl, rfl, rfl, rfl⟩

/-- Claim C1: for every executable build, module close synthesizes `_main`
calling the declared-noreturn `exit(i32)` with argument `0` followed by an
(unreachable) `ret void`, and fails with an error when no `@entry` was
recorded.  (The executable branch is `Codegen.buildMain`, modelled from the
spec; the snapshot's codegen/mod.rs `Codegen::build` carries only the
Win32-DLL branch while its callers drive the entry state.) -/
theorem c1_main_synthesis (cg : Codegen) :
    (cg.entry ≠ "" →
      cg.buildModule true = .ok (cg.funcs ++ [exitDecl, mainSynth]) ∧
        exitDecl.noret = true ∧ exitDecl.params = [.i32t] ∧ exitDecl.ret = .void ∧
        mainSynth.name = "_main" ∧ mainSynth.body = [.callFn "exit" [0], .retVoid]) ∧
    Codegen.buildModule { cg with entry := "" } true = .error "no entry point" := by
  constructor
  · intro h
    refine ⟨?_, rfl, rfl, rfl, rfl, rfl⟩
    simp [Codegen.buildModule, Codegen.buildMain, h]
  · simp [Codegen.buildModule, Codegen.buildMain]

/-- Witness for `c1_main_synthesis`: a context that recorded an entry gets
the synthesized `_main` and `exit`. -/
theorem c1_main_synthesis_witness :
    Codegen.buildModule { exeCg with entry := "_NIF3AppF4Main0SS5Int32" } true =
      .ok (exeCg.funcs ++ [exitDecl, mainSynth]) :=
  ((c1_main_synthesis { exeCg with entry := "_NIF3AppF4Main0SS5Int32" }).1 (by simp)).1

/-- A successful whitespace skip lands on a non-whitespace character that
is a suffix-head of the scanned list, at the reported position. -/
theorem skipWs_some (l : List Char) (i : Nat) (c : Char) (cs : List Char) (i' : Nat)
    (h : skipWs l i = some (c, cs, i')) :
    ∃ k, l.drop k = c :: cs ∧ i' = i + k ∧ c.isWhitespace = false := by
  induction l generalizing i with
  | nil => simp [skipWs] at h
  | cons a l ih =>
    by_cases ha : a.isWhitespace
    · rw [skipWs, if_pos ha] at h
      obtain ⟨k, hk, hi, hc⟩ := ih (i + 1) h
      exact ⟨k + 1, by simpa using hk, by omega, hc⟩
    · rw [skipWs, if_neg ha] at h
      obtain ⟨hc, hcs, hi⟩ : c = a ∧ cs = l ∧ i' = i := by
        simpa [eq_comm] using h
      exact ⟨0, by simp [hc, hcs], by omega, by simp [hc, ha]⟩

/-- A string-literal token starts at the opening quote. -/
theorem scanStr_offset (cs : List Char) (pos start : Nat) (acc : List Char) (t : Tok) (p : Nat)
    (h : scanStr cs pos start acc = .ok (t, p)) : t.span.offset = start := by
  induction cs generalizing pos acc with
  | nil => simp [scanStr] at h
  | cons a l ih =>
    rw [scanStr] at h
    by_cases h1 : a = '\n'
    · simp [h1] at h
    · rw [if_neg h1] at h
      by_cases h2 : a = '"'
      · rw [if_pos h2] at h
        obtain ⟨ht, hp⟩ : Tok.strLit ⟨start, pos + 1 - start⟩ (String.mk acc) = t ∧ pos + 1 = p := by
          simpa using h
        rw [← ht]
        rfl
      · exact ih (pos + 1) (acc ++ [a]) (by rwa [if_neg h2] at h)

/-- A numeric literal keeps the span it is given. -/
theorem parseNum_span (lit : List Char) (s : Span) (t : Tok)
    (h : parseNum lit s = .ok t) : t.span = s := by
  unfold parseNum at h
  split_ifs at h <;> (injection h with h2; cases h2; rfl)

set_option maxHeartbeats 1600000 in
/-- A keyword or identifier token keeps the span it is given. -/
theorem parseIdentTok_span (word : List Char) (s : Span) :
    (parseIdentTok word s).span = s := by
  unfold parseIdentTok
  dsimp only
  repeat' split
  all_goals rfl

/-- Every token `lexTok` recognizes starts exactly at the character it was
handed: its span offset is the scan position. -/
theorem lexTok_offset (c : Char) (cs : List Char) (i : Nat) (t : Tok) (p : Nat)
    (h : lexTok c cs i = .ok (t, p)) : t.span.offset = i := by
  unfold lexTok at h
  by_cases h1 : c = '!'
  · rw [if_pos h1] at h; injection h with hx; cases hx; rfl
  rw [if_neg h1] at h
  by_cases h2 : c = '='
  · rw [if_pos h2] at h; injection h with hx; cases hx; rfl
  rw [if_neg h2] at h
  by_cases h3 : c = '*'
  · rw [if_pos h3] at h; injection h with hx; cases hx; rfl
  rw [if_neg h3] at h
  by_cases h4 : c = '.'
  · rw [if_pos h4] at h; injection h with hx; cases hx; rfl
  rw [if_neg h4] at h
  by_cases h5 : c = ','
  · rw [if_pos h5] at h; injection h with hx; cases hx; rfl
  rw [if_neg h5] at h
  by_cases h6 : c = ':'
  · rw [if_pos h6] at h; injection h with hx; cases hx; rfl
  rw [if_neg h6] at h
  by_cases h7 : c = ';'
  · rw [if_pos h7] at h; injection h with hx; cases hx; rfl
  rw [if_neg h7] at h
  by_cases h8 : c = '('
  · rw [if_pos h8] at h; injection h with hx; cases hx; rfl
  rw [if_neg h8] at h
  by_cases h9 : c = ')'
  · rw [if_pos h9] at h; injection h with hx; cases hx; rfl
  rw [if_neg h9] at h
  by_cases h10 : c = '{'
  · rw [if_pos h10] at h; injection h with hx; cases hx; rfl
  rw [if_neg h10] at h
  by_cases h11 : c = '}'
  · rw [if_pos h11] at h; injection h with hx; cases hx; rfl
  rw [if_neg h11] at h
  by_cases h12 : c = '@'
  · rw [if_pos h12] at h
    dsimp only at h
    by_cases he : (cs.takeWhile isIdentChar).isEmpty
    · rw [if_pos he] at h
      exact absurd h (by simp)
    · rw [if_neg he] at h
      injection h with hx; cases hx; rfl
  rw [if_neg h12] at h
  by_cases h13 : c = '"'
  · rw [if_pos h13] at h
    exact scanStr_offset _ _ _ _ _ _ h
  rw [if_neg h13] at h
  by_cases h14 : c.isDigit
  · rw [if_pos h14] at h
    dsimp only at h
    split at h
    · exact absurd h (by simp)
    · rename_i t0 heq
      injection h with hx; cases hx
      rw [parseNum_span _ _ _ heq]
  rw [if_neg h14] at h
  by_cases h15 : isIdentChar c
  · rw [if_pos h15] at h
    dsimp only at h
    injection h with hx; cases hx
    rw [parseIdentTok_span]
  rw [if_neg h15] at h
  exact absurd h (by simp)

/-- Claim C9: for every source and every token `t` returned by
`Lexer::next`, calling `undo` and then `next` again returns the same token
`t` (hence equal in span and kind).  `undo` rewinds the cursor to `t`'s
span offset, which is exactly the position of the non-whitespace character
the token was lexed from, so re-lexing is deterministic from there. -/
theorem c9_undo_next (lx lx' : Lexer) (t : Tok) (h : lx.next = .ok (some t, lx')) :
    ∃ l2 lx'', lx'.undo = some l2 ∧ l2.next = .ok (some t, lx'') := by
  unfold Lexer.next at h
  split at h
  · exact absurd h (by simp)
  · rename_i c cs i hs
    split at h
    · exact absurd h (by simp)
    · rename_i t0 p hl
      injection h with h2
      injection h2 with ha hb
      injection ha with ha2
      subst ha2
      subst hb
      have hoff := lexTok_offset c cs i t0 p hl
      obtain ⟨k, hdrop, hik, hws⟩ := skipWs_some _ _ _ _ _ hs
      have hdata : lx.data.drop i = c :: cs := by
        rw [hik, ← hdrop, List.drop_drop]
      refine ⟨⟨lx.data, t0.span.offset, none⟩, ⟨lx.data, p, some t0.span⟩, rfl, ?_⟩
      have h2 : skipWs (lx.data.drop t0.span.offset) t0.span.offset = some (c, cs, i) := by
        rw [hoff, hdata, skipWs, if_neg (by simp [hws])]
      unfold Lexer.next
      simp only [h2, hl]

/-- Witness for `c9_undo_next` on the source `" ab"`: the identifier token
`ab` at offset 1 is returned again after `undo`. -/
theorem c9_undo_next_witness :
    ∃ l2 lx'', Lexer.undo ⟨" ab".data, 3, some ⟨1, 2⟩⟩ = some l2 ∧
      l2.next = .ok (some (.ident ⟨1, 2⟩ "ab"), lx'') :=
  c9_undo_next ⟨" ab".data, 0, none⟩ ⟨" ab".data, 3, some ⟨1, 2⟩⟩ (.ident ⟨1, 2⟩ "ab") (by rfl)

/-- Claim C6 counterexample: the mangled type reference of the internal
(package-absent) struct `foo.Bar` at pointer level 0 is `"SS3foo3Bar"` —
the struct marker `S` followed by a second `S` standing for the absent
package — while the claim's grammar `S <len><seg>…` predicts `"S3foo3Bar"`
with exactly one `S` before the first segment length. -/
theorem c6_cex :
    PkgType.mangle (.struc 0 none "foo.Bar") = "SS3foo3Bar" ∧
      PkgType.mangle (.struc 0 none "foo.Bar") ≠ specInternalStructRef 0 "foo.Bar" := by
  constructor
  · rfl
  · decide

/-- Claim C6 as amended: for every internal (package-absent) struct type
reference, the mangled type_ref consists of one `P` per pointer level
followed by the struct marker `S`, a second `S` marking the absent package,
and then the length-prefixed dotted-name segments — exactly two `S`
characters precede the first segment length (pkg/ty.rs `mangle_basic`
pushes `S` for a non-class type and `S` again when `pkg` is `None`). -/
theorem c6_internal_struct_mangle (ptr : Nat) (name : String) :
    PkgType.mangle (.struc ptr none name) = manglePtrs ptr ++ "SS" ++ mangleSegs name := by
  simp [PkgType.mangle, mangleBasic, String.append_assoc]

namespace Npk

/-- `beBytes` produces exactly `w` bytes. -/
theorem beBytes_length (w : Nat) : ∀ v, (beBytes w v).length = w := by
  induction w with
  | zero => intro v; rfl
  | succ w ih => intro v; simp [beBytes, ih]

/-- Appending one byte shifts the decoded value. -/
theorem fromBE_append (l : List Nat) (b : Nat) :
    fromBE (l ++ [b]) = fromBE l * 256 + b := by
  simp [fromBE, List.foldl_append]

/-- Decoding inverts encoding for values in range. -/
theorem fromBE_beBytes (w : Nat) : ∀ v, v < 256 ^ w → fromBE (beBytes w v) = v := by
  induction w with
  | zero =>
    intro v hv
    have : v = 0 := by simpa using Nat.lt_one_iff.mp (by simpa using hv)
    simp [this, beBytes, fromBE]
  | succ w ih =>
    intro v hv
    have hdiv : v / 256 < 256 ^ w := by
      have : 256 ^ (w + 1) = 256 ^ w * 256 := pow_succ 256 w
      omega
    simp only [beBytes, fromBE_append, ih (v / 256) hdiv]
    omega

/-- `read_exact` on a stream starting with exactly the requested bytes. -/
theorem readN_exact (xs rest : List Nat) :
    readN xs.length (xs ++ rest) = some (xs, rest) := by
  unfold readN
  rw [if_pos (by simp)]
  rw [List.take_left, List.drop_left]

/-- `readN_exact` with the length given by an equation. -/
theorem readN_eq (n : Nat) (xs rest : List Nat) (h : xs.length = n) :
    readN n (xs ++ rest) = some (xs, rest) := by
  subst h; exact readN_exact xs rest

/-- `takeWhile` passes over a block that satisfies the predicate. -/
theorem takeWhile_append_all (p : Nat → Bool) (xs ys : List Nat)
    (h : ∀ x ∈ xs, p x = true) :
    (xs ++ ys).takeWhile p = xs ++ ys.takeWhile p := by
  induction xs with
  | nil => rfl
  | cons a tl ih =>
    have ha := h a (by simp)
    simp only [List.cons_append, List.takeWhile_cons, ha, if_true]
    rw [ih fun x hx => h x (by simp [hx])]

/-- `takeWhile (· ≠ 0)` stops at the zero padding. -/
theorem takeWhile_pad (k : Nat) :
    (List.replicate k 0).takeWhile (fun x => decide (x ≠ 0)) = [] := by
  cases k with
  | zero => rfl
  | succ k => simp [List.replicate_succ, List.takeWhile_cons]

/-- A well-formed name fits in the 32-byte field. -/
theorem nameWf_length (n : List Nat) (h : nameWf n = true) : n.length ≤ 32 := by
  cases n with
  | nil => simp [nameWf] at h
  | cons c tl =>
    simp only [nameWf, Bool.and_eq_true, decide_eq_true_eq] at h
    exact h.1.1

/-- A well-formed name has no zero byte. -/
theorem nameWf_nonzero (n : List Nat) (h : nameWf n = true) :
    ∀ x ∈ n, (fun x => decide (x ≠ 0)) x = true := by
  cases n with
  | nil => simp [nameWf] at h
  | cons c tl =>
    simp only [nameWf, Bool.and_eq_true, decide_eq_true_eq, List.all_eq_true,
      isLowerByte, isDigitByte, Bool.or_eq_true] at h
    obtain ⟨⟨hlen, hc⟩, htl⟩ := h
    intro x hx
    rcases List.mem_cons.mp hx with hx | hx
    · subst hx; simp only [decide_eq_true_eq]; omega
    · have h2 := htl x hx
      simp only [decide_eq_true_eq]
      rcases h2 with h2 | h2 <;> omega

/-- Name decoding inverts encoding for well-formed names. -/
theorem nameFromBin_toBin (n : List Nat) (h : nameWf n = true) :
    nameFromBin (nameToBin n) = .ok n := by
  unfold nameFromBin nameToBin
  rw [takeWhile_append_all _ _ _ (nameWf_nonzero n h), takeWhile_pad, List.append_nil]
  simp [h]

/-- The packed version value in arithmetic form. -/
theorem toBin_arith (v : Version) (h : v.wf = true) :
    v.toBin = v.major * 2 ^ 32 + v.minor * 2 ^ 16 + v.patch := by
  simp only [Version.wf, Bool.and_eq_true, decide_eq_true_eq] at h
  obtain ⟨⟨hM, hm⟩, hp⟩ := h
  unfold Version.toBin
  rw [Nat.shiftLeft_eq, Nat.shiftLeft_eq]
  rw [show v.major * 2 ^ 32 = 2 ^ 32 * v.major by ring]
  rw [← Nat.mul_add_lt_is_or (by omega : v.minor * 2 ^ 16 < 2 ^ 32) v.major]
  rw [show 2 ^ 32 * v.major + v.minor * 2 ^ 16 =
    2 ^ 16 * (2 ^ 16 * v.major + v.minor) by ring]
  rw [← Nat.mul_add_lt_is_or (by omega : v.patch < 2 ^ 16)]

/-- The packed version value fits in a u64. -/
theorem toBin_lt (v : Version) (h : v.wf = true) : v.toBin < 256 ^ 8 := by
  rw [toBin_arith v h]
  simp only [Version.wf, Bool.and_eq_true, decide_eq_true_eq] at h
  obtain ⟨⟨hM, hm⟩, hp⟩ := h
  have : (256 : Nat) ^ 8 = 2 ^ 64 := by norm_num
  rw [this]
  omega

/-- Version decoding inverts encoding for in-range versions. -/
theorem fromBin_toBin (v : Version) (h : v.wf = true) :
    Version.fromBin v.toBin = v := by
  have harith := toBin_arith v h
  simp only [Version.wf, Bool.and_eq_true, decide_eq_true_eq] at h
  obtain ⟨⟨hM, hm⟩, hp⟩ := h
  obtain ⟨ma, mi, pa⟩ := v
  simp only at harith hM hm hp
  unfold Version.fromBin
  rw [harith, Nat.shiftRight_eq_div_pow, Nat.shiftRight_eq_div_pow]
  simp only [Version.mk.injEq]
  refine ⟨?_, ?_, ?_⟩ <;> omega

/-- Dependency deserialization inverts serialization. -/
theorem deser_ser (d : Dep) (h : d.wf = true) (rest : List Nat) :
    Dep.deser (Dep.ser d ++ rest) = .ok (d, rest) := by
  obtain ⟨nm, ver⟩ := d
  simp only [Dep.wf, Bool.and_eq_true] at h
  obtain ⟨hn, hv⟩ := h
  unfold Dep.ser Dep.deser
  rw [List.append_assoc]
  rw [readN_eq 32 _ _ (by simp [nameToBin]; have := nameWf_length nm hn; omega)]
  simp only [nameFromBin_toBin nm hn, Except.bind, bind]
  rw [readN_eq 8 _ _ (beBytes_length 8 _)]
  simp only [fromBE_beBytes 8 _ (toBin_lt ⟨_, _, _⟩ hv), fromBin_toBin ⟨_, _, _⟩ hv]

/-- The dependency loop inverts the serialized dependency list. -/
theorem readDeps_ser (ds : List Dep) (h : ds.all Dep.wf = true) (rest : List Nat) :
    readDeps ds.length ((ds.map Dep.ser).flatten ++ rest) = .ok (ds, rest) := by
  induction ds with
  | nil => rfl
  | cons d tl ih =>
    simp only [List.all_cons, Bool.and_eq_true] at h
    simp only [List.length_cons, List.map_cons, List.flatten_cons, List.append_assoc]
    unfold readDeps
    rw [deser_ser d h.1]
    simp only [Except.bind, bind, ih h.2]

/-- `read_exact` of one byte. -/
theorem readN_one (x : Nat) (l : List Nat) : readN 1 (x :: l) = some ([x], l) :=
  readN_eq 1 [x] l rfl

/-- `read_exact` of a two-byte big-endian field. -/
theorem readN_be2 (v : Nat) (rest : List Nat) :
    readN 2 (beBytes 2 v ++ rest) = some (beBytes 2 v, rest) :=
  readN_eq 2 _ _ (beBytes_length 2 v)

/-- `read_exact` of a four-byte big-endian field. -/
theorem readN_be4 (v : Nat) (rest : List Nat) :
    readN 4 (beBytes 4 v ++ rest) = some (beBytes 4 v, rest) :=
  readN_eq 4 _ _ (beBytes_length 4 v)

/-- `read_exact` of an eight-byte big-endian field. -/
theorem readN_be8 (v : Nat) (rest : List Nat) :
    readN 8 (beBytes 8 v ++ rest) = some (beBytes 8 v, rest) :=
  readN_eq 8 _ _ (beBytes_length 8 v)

/-- Serialization succeeds on a well-formed type. -/
theorem tySer_total (t : PkgType (List Nat)) (h : tyWf t = true) :
    (tySer t).isSome = true := by
  cases t with
  | unit ptr =>
    simp only [tyWf, decide_eq_true_eq] at h
    simp [tySer, h]
  | never => rfl
  | struc ptr pkg name =>
    simp only [tyWf, tyWf.tyBasicWf, Bool.and_eq_true, decide_eq_true_eq] at h
    obtain ⟨⟨⟨hp, hpkg⟩, hlen⟩, hu⟩ := h
    cases pkg with
    | none => simp [tySer, tySer.tySerBasic, hp]
    | some pv =>
      obtain ⟨pn, pver⟩ := pv
      simp only [Bool.and_eq_true, decide_eq_true_eq] at hpkg
      have hv : pver < 65536 := by omega
      simp [tySer, tySer.tySerBasic, hp, hpkg.1.1.2, hv]
  | cls ptr pkg name =>
    simp only [tyWf, tyWf.tyBasicWf, Bool.and_eq_true, decide_eq_true_eq] at h
    obtain ⟨⟨⟨hp, hpkg⟩, hlen⟩, hu⟩ := h
    cases pkg with
    | none => simp [tySer, tySer.tySerBasic, hp]
    | some pv =>
      obtain ⟨pn, pver⟩ := pv
      simp only [Bool.and_eq_true, decide_eq_true_eq] at hpkg
      have hv : pver < 65536 := by omega
      simp [tySer, tySer.tySerBasic, hp, hpkg.1.1.2, hv]

/-- Type deserialization inverts serialization for well-formed types. -/
theorem tyDeser_ser (t : PkgType (List Nat)) (h : tyWf t = true) (b : List Nat)
    (hb : tySer t = some b) (rest : List Nat) :
    tyDeser (b ++ rest) = .ok (t, rest) := by
  cases t with
  | never =>
    simp only [tySer, Option.some.injEq] at hb
    subst hb
    simp [tyDeser, readN_one]
  | unit ptr =>
    simp only [tyWf, decide_eq_true_eq] at h
    rw [tySer, if_pos h] at hb
    injection hb with hb
    subst hb
    simp [tyDeser, readN_one]
  | struc ptr pkg name =>
    simp only [tyWf, tyWf.tyBasicWf, Bool.and_eq_true, decide_eq_true_eq] at h
    obtain ⟨⟨⟨hp, hpkg⟩, hlen⟩, hu⟩ := h
    cases pkg with
    | none =>
      rw [tySer, tySer.tySerBasic, if_pos hp] at hb
      simp only [Option.map_some', Option.some.injEq] at hb
      subst hb
      simp only [List.append_assoc, List.cons_append, List.nil_append]
      unfold tyDeser
      simp only [readN_one, List.headD]
      norm_num
      rw [readN_eq 2 _ _ (beBytes_length 2 _)]
      simp only [Except.bind, bind, Except.pure, pure,
        fromBE_beBytes 2 name.length (by omega), readN_exact]
      rw [if_pos hu]
    | some pv =>
      obtain ⟨pn, pver⟩ := pv
      simp only [Bool.and_eq_true, decide_eq_true_eq] at hpkg
      obtain ⟨⟨⟨hpos, hplen⟩, hputf⟩, hpver⟩ := hpkg
      rw [tySer, tySer.tySerBasic, if_pos hp, if_pos ⟨hplen, hpver⟩] at hb
      simp only [Option.map_some', Option.some.injEq] at hb
      subst hb
      simp only [List.append_assoc, List.cons_append, List.nil_append]
      unfold tyDeser
      simp only [readN_one, List.headD]
      norm_num
      have hne0 : pn ≠ [] := by
        cases pn
        · simp at hpos
        · simp
      simp only [if_neg hne0, readN_exact, if_pos hputf, readN_be2,
        fromBE_beBytes 2 pver (by omega), fromBE_beBytes 2 name.length (by omega),
        Except.bind, bind, Except.pure, pure, if_pos hu]
  | cls ptr pkg name =>
    simp only [tyWf, tyWf.tyBasicWf, Bool.and_eq_true, decide_eq_true_eq] at h
    obtain ⟨⟨⟨hp, hpkg⟩, hlen⟩, hu⟩ := h
    cases pkg with
    | none =>
      rw [tySer, tySer.tySerBasic, if_pos hp] at hb
      simp only [Option.map_some', Option.some.injEq] at hb
      subst hb
      simp only [List.append_assoc, List.cons_append, List.nil_append]
      unfold tyDeser
      simp only [readN_one, List.headD]
      norm_num
      rw [readN_eq 2 _ _ (beBytes_length 2 _)]
      simp only [Except.bind, bind, Except.pure, pure,
        fromBE_beBytes 2 name.length (by omega), readN_exact]
      rw [if_pos hu]
    | some pv =>
      obtain ⟨pn, pver⟩ := pv
      simp only [Bool.and_eq_true, decide_eq_true_eq] at hpkg
      obtain ⟨⟨⟨hpos, hplen⟩, hputf⟩, hpver⟩ := hpkg
      rw [tySer, tySer.tySerBasic, if_pos hp, if_pos ⟨hplen, hpver⟩] at hb
      simp only [Option.map_some', Option.some.injEq] at hb
      subst hb
      simp only [List.append_assoc, List.cons_append, List.nil_append]
      unfold tyDeser
      simp only [readN_one, List.headD]
      norm_num
      have hne0 : pn ≠ [] := by
        cases pn
        · simp at hpos
        · simp
      simp only [if_neg hne0, readN_exact, if_pos hputf, readN_be2,
        fromBE_beBytes 2 pver (by omega), fromBE_beBytes 2 name.length (by omega),
        Except.bind, bind, Except.pure, pure, if_pos hu]

/-- Serialization of a parameter succeeds when well-formed. -/
theorem paramSer_total (p : PkgParam (List Nat)) (h : paramWf p = true) :
    (paramSer p).isSome = true := by
  simp only [paramWf, Bool.and_eq_true, decide_eq_true_eq] at h
  obtain ⟨⟨hn, hu⟩, ht⟩ := h
  obtain ⟨b, hb⟩ := Option.isSome_iff_exists.mp (tySer_total p.ty ht)
  simp [paramSer, hb, hn]

/-- Parameter deserialization inverts serialization. -/
theorem deserParam_ser (p : PkgParam (List Nat)) (h : paramWf p = true) (b : List Nat)
    (hb : paramSer p = some b) (f : Nat) (rest : List Nat) :
    deserParamGo (f + 3) (b ++ rest) none none = .ok (p, rest) := by
  obtain ⟨nm, ty⟩ := p
  simp only [paramWf, Bool.and_eq_true, decide_eq_true_eq] at h
  obtain ⟨⟨hn, hu⟩, ht⟩ := h
  rw [paramSer] at hb
  cases hty : tySer ty with
  | none => rw [hty] at hb; exact absurd hb (by simp [Option.bind, bind])
  | some tb =>
    rw [hty] at hb
    simp only [Option.bind, bind] at hb
    rw [if_pos hn] at hb
    injection hb with hb
    subst hb
    simp only [List.append_assoc, List.cons_append, List.nil_append]
    simp only [deserParamGo, readN_one, List.headD_cons, readN_exact,
      tyDeser_ser ty ht tb hty, Except.bind, bind, if_pos hu]

/-- The parameter loop inverts the serialized parameter list. -/
theorem readParams_ser (ps : List (PkgParam (List Nat))) (h : ps.all paramWf = true)
    (bs : List Nat) (hbs : serList paramSer ps = some bs) (f : Nat) (hf : 3 ≤ f)
    (rest : List Nat) :
    readParams f ps.length (bs ++ rest) = .ok (ps, rest) := by
  induction ps generalizing bs rest with
  | nil =>
    simp only [serList, Option.some.injEq] at hbs
    subst hbs
    rfl
  | cons p tl ih =>
    simp only [List.all_cons, Bool.and_eq_true] at h
    rw [serList] at hbs
    cases hp : paramSer p with
    | none => rw [hp] at hbs; exact absurd hbs (by simp [Option.bind, bind])
    | some b =>
      rw [hp] at hbs
      cases htl : serList paramSer tl with
      | none =>
        rw [htl] at hbs; exact absurd hbs (by simp [Option.bind, bind])
      | some bs2 =>
        rw [htl] at hbs
        simp only [Option.bind, bind, Option.some.injEq] at hbs
        subst hbs
        obtain ⟨f2, rfl⟩ : ∃ f2, f = f2 + 3 := ⟨f - 3, by omega⟩
        simp only [List.length_cons, List.append_assoc]
        rw [readParams, deserParam]
        rw [deserParam_ser p h.1 b hp f2 (bs2 ++ rest)]
        simp only [Except.bind, bind, ih h.2 bs2 htl rest]

/-- Sequential serialization succeeds when every element is well-formed. -/
theorem serList_total (g : α → Option (List Nat)) (wf : α → Bool) (l : List α)
    (h : l.all wf = true) (hg : ∀ x, wf x = true → (g x).isSome = true) :
    (serList g l).isSome = true := by
  induction l with
  | nil => rfl
  | cons x tl ih =>
    simp only [List.all_cons, Bool.and_eq_true] at h
    obtain ⟨b, hb⟩ := Option.isSome_iff_exists.mp (hg x h.1)
    obtain ⟨bs, hbs⟩ := Option.isSome_iff_exists.mp (ih h.2)
    simp [serList, hb, hbs]

/-- Serialization of a function succeeds when well-formed. -/
theorem funcSer_total (fn : PkgFunc (List Nat)) (h : funcWf fn = true) :
    (funcSer fn).isSome = true := by
  simp only [funcWf, Bool.and_eq_true, decide_eq_true_eq] at h
  obtain ⟨⟨⟨⟨hn, hu⟩, ht⟩, hplen⟩, hall⟩ := h
  obtain ⟨rb, hrb⟩ := Option.isSome_iff_exists.mp (tySer_total fn.ret ht)
  obtain ⟨pbs, hpbs⟩ := Option.isSome_iff_exists.mp
    (serList_total paramSer paramWf fn.params hall paramSer_total)
  have hn2 : fn.name.length < 65536 := by omega
  simp [funcSer, hrb, hpbs, hn2, hplen]

/-- Function deserialization inverts serialization. -/
theorem deserFunc_ser (fn : PkgFunc (List Nat)) (h : funcWf fn = true) (b : List Nat)
    (hb : funcSer fn = some b) (f : Nat) (rest : List Nat) :
    deserFuncGo (f + 6) (b ++ rest) none [] none = .ok (fn, rest) := by
  obtain ⟨nm, ps, rt⟩ := fn
  simp only [funcWf, Bool.and_eq_true, decide_eq_true_eq] at h
  obtain ⟨⟨⟨⟨hn, hu⟩, ht⟩, hplen⟩, hall⟩ := h
  rw [funcSer] at hb
  cases hrb : tySer rt with
  | none => rw [hrb] at hb; exact absurd hb (by simp [Option.bind, bind])
  | some rb =>
    rw [hrb] at hb
    cases hpbs : serList paramSer ps with
    | none => rw [hpbs] at hb; exact absurd hb (by simp [Option.bind, bind])
    | some pbs =>
      rw [hpbs] at hb
      simp only [Option.bind, bind] at hb
      rw [if_pos ⟨hn, hplen⟩] at hb
      injection hb with hb
      subst hb
      simp only [List.append_assoc, List.cons_append, List.nil_append]
      simp only [deserFuncGo, readN_one, List.headD_cons, readN_be2,
        fromBE_beBytes 2 nm.length (by omega), readN_exact, if_pos hu,
        tyDeser_ser rt ht rb hrb, Except.bind, bind,
        readParams_ser ps hall pbs hpbs (f + 3) (by omega), List.nil_append]

/-- A name sharing no entry with the set accumulated so far. -/
theorem nodup_not_mem (acc : List (PkgFunc (List Nat))) (fn : PkgFunc (List Nat))
    (tl : List (PkgFunc (List Nat)))
    (h : funcNamesNodup (acc ++ fn :: tl) = true) :
    acc.any (fun g => g.name = fn.name) = false := by
  induction acc with
  | nil => rfl
  | cons a acc2 ih =>
    simp only [List.cons_append, funcNamesNodup, Bool.and_eq_true,
      Bool.not_eq_eq_eq_not, Bool.not_true, List.any_eq_false] at h
    obtain ⟨hhead, htail⟩ := h
    have hne := hhead fn (by simp)
    simp only [List.any_cons, Bool.or_eq_false_iff]
    constructor
    · simp only [decide_eq_false_iff_not]
      exact fun e => hne (decide_eq_true e.symm)
    · exact ih (by
        simpa only [funcNamesNodup, Bool.and_eq_true, List.any_eq_false] using htail)

/-- The function loop inverts the serialized function list, rejecting no
entry when the names are distinct. -/
theorem readFns_ser (fns : List (PkgFunc (List Nat))) (h : fns.all funcWf = true)
    (bs : List Nat) (hbs : serList funcSer fns = some bs)
    (acc : List (PkgFunc (List Nat))) (hnd : funcNamesNodup (acc ++ fns) = true)
    (f : Nat) (hf : 6 ≤ f) (rest : List Nat) :
    readFns f fns.length (bs ++ rest) acc = .ok (acc ++ fns, rest) := by
  induction fns generalizing bs acc rest with
  | nil =>
    simp only [serList, Option.some.injEq] at hbs
    subst hbs
    simp [readFns]
  | cons fn tl ih =>
    simp only [List.all_cons, Bool.and_eq_true] at h
    rw [serList] at hbs
    cases hfn : funcSer fn with
    | none => rw [hfn] at hbs; exact absurd hbs (by simp [Option.bind, bind])
    | some b =>
      rw [hfn] at hbs
      cases htl : serList funcSer tl with
      | none => rw [htl] at hbs; exact absurd hbs (by simp [Option.bind, bind])
      | some bs2 =>
        rw [htl] at hbs
        simp only [Option.bind, bind, Option.some.injEq] at hbs
        subst hbs
        obtain ⟨f2, rfl⟩ : ∃ f2, f = f2 + 6 := ⟨f - 6, by omega⟩
        simp only [List.length_cons, List.append_assoc]
        rw [readFns, deserFunc]
        rw [deserFunc_ser fn h.1 b hfn f2 (bs2 ++ rest)]
        simp only [Except.bind, bind]
        rw [if_neg (by simp [nodup_not_mem acc fn tl hnd])]
        have hnd2 : funcNamesNodup ((acc ++ [fn]) ++ tl) = true := by
          rw [List.append_assoc]
          exact hnd
        rw [ih h.2 bs2 htl (acc ++ [fn]) hnd2 rest]
        rw [List.append_assoc]
        rfl

/-- Serialization of a type declaration succeeds when well-formed. -/
theorem tdSer_total (d : TypeDecl) (h : tdWf d = true) :
    (tdSer d).isSome = true := by
  simp only [tdWf, Bool.and_eq_true, decide_eq_true_eq] at h
  obtain ⟨⟨⟨⟨hn, hu⟩, hflen⟩, hall⟩, hnd⟩ := h
  obtain ⟨fbs, hfbs⟩ := Option.isSome_iff_exists.mp
    (serList_total funcSer funcWf d.funcs hall funcSer_total)
  have hn2 : d.name.length < 65536 := by omega
  have hf2 : d.funcs.length < 4294967296 := by omega
  simp [tdSer, hfbs, hn2, hf2]

/-- Type-declaration deserialization inverts serialization up to the
attribute slots, which are not serialized and come back empty. -/
theorem tdDeser_ser (d : TypeDecl) (h : tdWf d = true) (b : List Nat)
    (hb : tdSer d = some b) (f : Nat) (rest : List Nat) :
    tdDeserGo (f + 9) (b ++ rest) none false false [] = .ok (d.strip, rest) := by
  obtain ⟨cls, pv, ev, rv, nm, fns⟩ := d
  simp only [tdWf, Bool.and_eq_true, decide_eq_true_eq] at h
  obtain ⟨⟨⟨⟨hn, hu⟩, hflen⟩, hall⟩, hnd⟩ := h
  rw [tdSer] at hb
  cases hfbs : serList funcSer fns with
  | none => rw [hfbs] at hb; exact absurd hb (by simp [Option.bind, bind])
  | some fbs =>
    rw [hfbs] at hb
    simp only [Option.bind, bind] at hb
    rw [if_pos ⟨hn, hflen⟩] at hb
    injection hb with hb
    subst hb
    simp only [List.append_assoc, List.cons_append, List.nil_append]
    cases cls with
    | false =>
      simp only [if_false, Bool.false_eq_true]
      simp only [tdDeserGo, readN_one, List.headD_cons, readN_be2,
        fromBE_beBytes 2 nm.length (by omega), readN_exact, if_pos hu,
        Except.bind, bind, readN_be4,
        fromBE_beBytes 4 fns.length (by omega),
        readFns_ser fns hall fbs hfbs [] (by simpa using hnd) (f + 6) (by omega),
        List.nil_append, TypeDecl.strip]
    | true =>
      simp only [if_true]
      simp only [tdDeserGo, readN_one, List.headD_cons, readN_be2,
        fromBE_beBytes 2 nm.length (by omega), readN_exact, if_pos hu,
        Except.bind, bind, readN_be4,
        fromBE_beBytes 4 fns.length (by omega),
        readFns_ser fns hall fbs hfbs [] (by simpa using hnd) (f + 6) (by omega),
        List.nil_append, TypeDecl.strip]

/-- The type loop inverts the serialized declaration list. -/
theorem readTDs_ser (tds : List TypeDecl) (h : tds.all tdWf = true)
    (bs : List Nat) (hbs : serList tdSer tds = some bs) (acc : List TypeDecl)
    (f : Nat) (hf : 9 ≤ f) (rest : List Nat) :
    readTDs f tds.length (bs ++ rest) acc = .ok (acc ++ tds.map TypeDecl.strip, rest) := by
  induction tds generalizing bs acc rest with
  | nil =>
    simp only [serList, Option.some.injEq] at hbs
    subst hbs
    simp [readTDs]
  | cons d tl ih =>
    simp only [List.all_cons, Bool.and_eq_true] at h
    rw [serList] at hbs
    cases hd : tdSer d with
    | none => rw [hd] at hbs; exact absurd hbs (by simp [Option.bind, bind])
    | some b =>
      rw [hd] at hbs
      cases htl : serList tdSer tl with
      | none => rw [htl] at hbs; exact absurd hbs (by simp [Option.bind, bind])
      | some bs2 =>
        rw [htl] at hbs
        simp only [Option.bind, bind, Option.some.injEq] at hbs
        subst hbs
        obtain ⟨f2, rfl⟩ : ∃ f2, f = f2 + 9 := ⟨f - 9, by omega⟩
        simp only [List.length_cons, List.append_assoc]
        rw [readTDs, tdDeser]
        rw [tdDeser_ser d h.1 b hd f2 (bs2 ++ rest)]
        simp only [Except.bind, bind]
        rw [ih h.2 bs2 htl (acc ++ [d.strip]) rest]
        rw [List.map_cons, List.append_assoc]
        rfl

/-- `read_exact` of a four-byte magic. -/
theorem readN_four (a b c d : Nat) (l : List Nat) :
    readN 4 (a :: b :: c :: d :: l) = some ([a, b, c, d], l) :=
  readN_eq 4 [a, b, c, d] l rfl

/-- Serialization of a library succeeds when well-formed. -/
theorem libSer_total (lb : Lib) (h : libWf lb = true) :
    (libSer lb).isSome = true := by
  obtain ⟨bin, types⟩ := lb
  simp only [libWf, Bool.and_eq_true, decide_eq_true_eq] at h
  obtain ⟨⟨hlen, hall⟩, hbin⟩ := h
  obtain ⟨tbs, htbs⟩ := Option.isSome_iff_exists.mp
    (serList_total tdSer tdWf types hall tdSer_total)
  have hlen2 : types.length < 4294967296 := by omega
  cases bin with
  | bundle c => simp [libSer, htbs, hlen2]
  | system n =>
    simp only [Bool.and_eq_true, decide_eq_true_eq] at hbin
    have hn2 : n.length < 65536 := by omega
    simp [libSer, htbs, hlen2, hn2]

/-- Library unpacking inverts serialization: the published declarations
come back attribute-stripped and the binary file gets the bundled bytes or
the system-library stub. -/
theorem libUnpack_ser (lb : Lib) (h : libWf lb = true) (b : List Nat)
    (hb : libSer lb = some b) (f : Nat) :
    libUnpack (f + 10) b = .ok (lb.types.map TypeDecl.strip, binOut lb) := by
  obtain ⟨bin, types⟩ := lb
  simp only [libWf, Bool.and_eq_true, decide_eq_true_eq] at h
  obtain ⟨⟨hlen, hall⟩, hbin⟩ := h
  rw [libSer] at hb
  cases htbs : serList tdSer types with
  | none => rw [htbs] at hb; exact absurd hb (by simp [Option.bind, bind])
  | some tbs =>
    rw [htbs] at hb
    cases bin with
    | bundle c =>
      simp only [Option.bind, bind] at hb
      rw [if_pos hlen] at hb
      injection hb with hb
      subst hb
      simp only [List.append_assoc, List.cons_append, List.nil_append]
      rw [libUnpack, readN_four]
      simp only [reduceIte]
      simp only [libUnpackGo, readN_one, List.headD_cons, readN_be4,
        fromBE_beBytes 4 types.length (by omega),
        readTDs_ser types hall tbs htbs [] (f + 9) (by omega), Except.bind, bind,
        List.nil_append, binOut]
    | system n =>
      simp only [Bool.and_eq_true, decide_eq_true_eq] at hbin
      obtain ⟨hn16, hnu⟩ := hbin
      simp only [Option.bind, bind] at hb
      rw [if_pos hn16, if_pos hlen] at hb
      injection hb with hb
      subst hb
      simp only [List.append_assoc, List.cons_append, List.nil_append]
      rw [libUnpack, readN_four]
      simp only [reduceIte]
      simp only [libUnpackGo, readN_one, List.headD_cons, readN_be4, readN_be2,
        fromBE_beBytes 4 types.length (by omega),
        fromBE_beBytes 2 n.length (by omega),
        readTDs_ser types hall tbs htbs [] (f + 9) (by omega), Except.bind, bind,
        readN_exact, if_pos hnu, List.nil_append, binOut]

/-- Serialization of a package library entry succeeds when well-formed. -/
theorem packLibEntry_total (e : List Nat × Lib × List Dep) (h : libEntryWf e = true) :
    (packLibEntry e).isSome = true := by
  obtain ⟨u, lb, deps⟩ := e
  simp only [libEntryWf, Bool.and_eq_true, decide_eq_true_eq] at h
  obtain ⟨⟨⟨⟨hu16, hlw⟩, hdw⟩, hdlen⟩, hfr⟩ := h
  cases hfrm : libSer lb with
  | none => rw [hfrm] at hfr; exact absurd hfr (by simp)
  | some frame =>
    rw [hfrm] at hfr
    simp only [decide_eq_true_eq] at hfr
    simp only [zstdC] at hfr
    have hd2 : deps.length < 65536 := by omega
    have hz2 : frame.length < 4294967296 := by omega
    simp [packLibEntry, hfrm, zstdC, hd2, hz2]

/-- The package entry loop consumes the serialized library entries and the
final END, accumulating each library's unpacked artifacts. -/
theorem unpackGo_libs (libs : List (List Nat × Lib × List Dep))
    (h : libs.all libEntryWf = true) (parts : List Nat)
    (hp : serList packLibEntry libs = some parts) (f : Nat) (nm : List Nat)
    (v : Version) (acc : List (List Nat × List Dep × List TypeDecl × List Nat)) :
    unpackGo (f + (libs.length + 11)) (parts ++ [0]) (some nm) (some v) acc =
      .ok ⟨nm, v, acc ++ libs.map expectedLib⟩ := by
  induction libs generalizing parts acc with
  | nil =>
    simp only [serList, Option.some.injEq] at hp
    subst hp
    rw [show f + (List.length (α := List Nat × Lib × List Dep) [] + 11) = (f + 10) + 1
      from by simp]
    simp [unpackGo, readN_one]
  | cons e tl ih =>
    simp only [List.all_cons, Bool.and_eq_true] at h
    obtain ⟨he, htl⟩ := h
    rw [serList] at hp
    cases hpe : packLibEntry e with
    | none => rw [hpe] at hp; exact absurd hp (by simp [Option.bind, bind])
    | some pe =>
      rw [hpe] at hp
      cases hpts : serList packLibEntry tl with
      | none => rw [hpts] at hp; exact absurd hp (by simp [Option.bind, bind])
      | some pts =>
        rw [hpts] at hp
        simp only [Option.bind, bind, Option.some.injEq] at hp
        subst hp
        obtain ⟨u, lb, deps⟩ := e
        have he2 := he
        simp only [libEntryWf, Bool.and_eq_true, decide_eq_true_eq] at he2
        obtain ⟨⟨⟨⟨hu16, hlw⟩, hdw⟩, hdlen⟩, hfr⟩ := he2
        cases hfrm : libSer lb with
        | none => rw [hfrm] at hfr; exact absurd hfr (by simp)
        | some frame =>
          rw [hfrm] at hfr
          simp only [decide_eq_true_eq] at hfr
          simp only [zstdC] at hfr
          rw [packLibEntry, hfrm] at hpe
          simp only [Option.bind, bind, zstdC] at hpe
          rw [if_pos ⟨hdlen, hfr⟩] at hpe
          injection hpe with hpe
          subst hpe
          have hlib := libUnpack_ser lb hlw frame hfrm (f + tl.length + 2)
          rw [show f + tl.length + 2 + 10 = f + tl.length + 11 + 1 from by omega] at hlib
          have hih := ih htl pts hpts (acc ++ [expectedLib (u, lb, deps)])
          rw [show f + (tl.length + 11) = f + tl.length + 11 from by omega] at hih
          simp only [expectedLib] at hih
          rw [show f + (List.length ((u, lb, deps) :: tl) + 11) = (f + tl.length + 11) + 1
            from by simp [List.length_cons]; omega]
          simp only [List.append_assoc, List.cons_append, List.nil_append]
          rw [unpackGo]
          simp only [readN_one, List.headD_cons,
            readN_eq 16 u _ hu16, readN_be2,
            fromBE_beBytes 2 deps.length (by omega),
            readDeps_ser deps hdw, Except.bind, bind, readN_be4,
            fromBE_beBytes 4 frame.length (by omega), readN_exact, zstdD, hlib, hih]
          simp [expectedLib]

/-- The NAME, VERSION and DATE entries step the unpack loop into the
recorded metadata state. -/
theorem unpackGo_header (nm : List Nat) (hn : nameWf nm = true) (v : Version)
    (hv : v.wf = true) (date : Nat) (tail : List Nat) (F : Nat) :
    unpackGo (F + 3) (1 :: (nameToBin nm ++ (2 :: (beBytes 8 v.toBin
        ++ (3 :: (beBytes 8 date ++ tail)))))) none none [] =
      unpackGo F tail (some nm) (some v) [] := by
  have hlen : (nameToBin nm).length = 32 := by
    simp [nameToBin]
    have := nameWf_length nm hn
    omega
  simp only [unpackGo, readN_one, List.headD_cons, readN_eq 32 _ _ hlen,
    nameFromBin_toBin nm hn, Except.bind, bind, readN_be8,
    fromBE_beBytes 8 v.toBin (toBin_lt v hv), fromBin_toBin v hv]

/-- Each serialized library entry is non-empty, so the entry count is
bounded by the byte count. -/
theorem serList_libs_length (libs : List (List Nat × Lib × List Dep))
    (parts : List Nat) (hp : serList packLibEntry libs = some parts) :
    libs.length ≤ parts.length := by
  induction libs generalizing parts with
  | nil => simp only [serList, Option.some.injEq] at hp; subst hp; simp
  | cons e tl ih =>
    rw [serList] at hp
    cases hpe : packLibEntry e with
    | none => rw [hpe] at hp; exact absurd hp (by simp [Option.bind, bind])
    | some pe =>
      rw [hpe] at hp
      cases hpts : serList packLibEntry tl with
      | none => rw [hpts] at hp; exact absurd hp (by simp [Option.bind, bind])
      | some pts =>
        rw [hpts] at hp
        simp only [Option.bind, bind, Option.some.injEq] at hp
        subst hp
        have hpe1 : 1 ≤ pe.length := by
          obtain ⟨u, lb, deps⟩ := e
          rw [packLibEntry] at hpe
          cases hfrm : libSer lb with
          | none => rw [hfrm] at hpe; exact absurd hpe (by simp [Option.bind, bind])
          | some frame =>
            rw [hfrm] at hpe
            simp only [Option.bind, bind] at hpe
            by_cases hc : deps.length < 2 ^ 16 ∧ (zstdC frame).length < 2 ^ 32
            · rw [if_pos hc] at hpe
              injection hpe with hpe
              subst hpe
              simp
            · rw [if_neg hc] at hpe
              exact absurd hpe (by simp)
        have := ih pts hpts
        simp only [List.length_cons, List.length_append]
        omega

/-- Packing succeeds on a well-formed package. -/
theorem pack_total (p : Package) (h : p.wf = true) (date : Nat) :
    (Package.pack p date).isSome = true := by
  have hlibs : p.libs.all libEntryWf = true := by
    simp only [Package.wf, Bool.and_eq_true] at h
    exact h.2
  obtain ⟨parts, hp⟩ := Option.isSome_iff_exists.mp
    (serList_total packLibEntry libEntryWf p.libs hlibs packLibEntry_total)
  simp [Package.pack, hp]

/-- Unpacking inverts packing: the metadata and, per target, the
dependency list, the attribute-stripped type declarations and the binary
are reproduced. -/
theorem unpack_pack (p : Package) (h : p.wf = true) (date : Nat) (b : List Nat)
    (hb : Package.pack p date = some b) :
    Package.unpack b = .ok ⟨p.name, p.version, p.libs.map expectedLib⟩ := by
  simp only [Package.wf, Bool.and_eq_true] at h
  obtain ⟨⟨⟨⟨hn, hv⟩, hne⟩, hexe⟩, hlibs⟩ := h
  rw [Package.pack] at hb
  cases hp : serList packLibEntry p.libs with
  | none => rw [hp] at hb; exact absurd hb (by simp [Option.bind, bind])
  | some parts =>
    rw [hp] at hb
    simp only [Option.bind, bind, Option.some.injEq] at hb
    have hcnt : p.libs.length ≤ parts.length := serList_libs_length p.libs parts hp
    have hblen : parts.length + 14 ≤ b.length := by
      rw [← hb]
      simp only [List.length_append, List.length_cons, List.append_assoc]
      simp [nameToBin, beBytes_length]
      omega
    obtain ⟨f0, hf0⟩ : ∃ f0, b.length + 16 = (f0 + (p.libs.length + 11)) + 3 :=
      ⟨b.length + 2 - p.libs.length, by omega⟩
    have hread : readN 4 b = some ([0x7F, 0x4E, 0x50, 0x4B],
        1 :: (nameToBin p.name ++ (2 :: (beBytes 8 p.version.toBin
          ++ (3 :: (beBytes 8 date ++ (parts ++ [0]))))))) := by
      rw [← hb]
      simp only [List.append_assoc, List.cons_append, List.nil_append]
      exact readN_four _ _ _ _ _
    rw [Package.unpack, hread]
    simp only [reduceIte]
    rw [hf0, unpackGo_header p.name hn p.version hv date _ _,
      unpackGo_libs p.libs hlibs parts hp f0 p.name p.version []]
    rw [List.nil_append]

end Npk

/-- Claim C3 counterexample: packing serializes no executable entry, so a
package holding only an executable loses its executables' target and
dependency data — the round trip yields empty libraries and cannot cover
"both its executable entries and its library entries"; the EXE entry tag 4
is not even recognized by unpack in this revision. -/
theorem c3_cex :
    Npk.Package.wf Npk.exePkg = true ∧ Npk.exePkg.exes ≠ [] ∧
      Npk.Package.pack Npk.exePkg 0 = some Npk.exeBytes ∧
      Npk.Package.unpack Npk.exeBytes =
        .ok ⟨Npk.exePkg.name, Npk.exePkg.version, []⟩ ∧
      Npk.Package.unpack [0x7F, 0x4E, 0x50, 0x4B, 4] =
        .error (.unknownEntry 4) := by
  refine ⟨by decide, by decide, by rfl, by rfl, by rfl⟩

/-- Claim C3 as amended: for every well-formed Package, unpacking the file
produced by packing reproduces the package name and version and, per
library target, the declared Dependency set, the declared TypeDeclaration
set with attribute slots cleared, and the binary payload; executable
entries are not serialized at all (Package::pack iterates only self.libs)
and so are not reproduced. -/
theorem c3_pack_unpack (p : Npk.Package) (date : Nat) (b : List Nat)
    (h : Npk.Package.wf p = true) (hb : Npk.Package.pack p date = some b) :
    Npk.Package.unpack b = .ok ⟨p.name, p.version, p.libs.map Npk.expectedLib⟩ :=
  Npk.unpack_pack p h date b hb

/-- Witness: the concrete two-target package wPkg round-trips to its
expected unpacked artifacts. -/
theorem c3_pack_unpack_witness :
    Npk.Package.unpack Npk.wBytes =
      .ok ⟨Npk.wPkg.name, Npk.wPkg.version, Npk.wPkg.libs.map Npk.expectedLib⟩ :=
  c3_pack_unpack Npk.wPkg 0 Npk.wBytes (by decide) (by rfl)


end Nitro
